import Mathlib

/-!
# Verification of the etfs-simulator backend

Shallow embedding of the Go backend of `abdonasmane/etfs-simulator`:

* `src/backend/internal/handler/simulate.go` — the growth simulator
  (`simulateMonthly`, `buildSummary`, `buildContributionMilestones`,
  `calculatePortfolioRates`, `simulateWithRange`, `round2`, `round1`);
* `src/backend/internal/marketdata/yahoo.go` — the statistics engine
  (`PointsPerYear`, `CalculateStats`, `percentile`, `standardDeviation`);
* `src/backend/internal/marketdata/indexservice.go` — the cached index
  service (`Initialize`, `fetchAndCalculate`, `roundTo2Decimals`,
  `roundTo1Decimal`).

Go `float64` arithmetic is idealised as exact real arithmetic (`ℝ`);
`math.Pow` becomes `Real.rpow`, `math.Round` (half away from zero) becomes
`goRound`, Go's `int(...)` float-to-int conversion (truncation toward zero)
becomes `goTrunc`.  Strings that only label errors are replaced by inductive
error types carrying the same data.  Time-of-day fields (`FetchedAt`,
`CalculatedAt`, price-point dates) and the textual date labels are dropped:
no function verified here reads them.  Network I/O (`FetchHistoricalData`)
is abstracted as an explicit `fetch` parameter.
-/

namespace EtfsSim

/-- Go's `math.Round`: round to the nearest integer, ties away from zero. -/
def goRound {α : Type*} [LinearOrderedField α] [FloorRing α] (x : α) : ℤ :=
  if 0 ≤ x then ⌊x + 1 / 2⌋ else ⌈x - 1 / 2⌉

/-- Go's `int(x)` conversion on floats: truncation toward zero. -/
def goTrunc {α : Type*} [LinearOrderedField α] [FloorRing α] (x : α) : ℤ :=
  if 0 ≤ x then ⌊x⌋ else ⌈x⌉

/-- `round2` from `simulate.go`: `math.Round(val*100) / 100`. -/
def round2 {α : Type*} [LinearOrderedField α] [FloorRing α] (val : α) : α :=
  (goRound (val * 100) : α) / 100

/-- `round1` from `simulate.go`: `math.Round(val*10) / 10`. -/
def round1 {α : Type*} [LinearOrderedField α] [FloorRing α] (val : α) : α :=
  (goRound (val * 10) : α) / 10

/-- `roundTo2Decimals` from `indexservice.go`: `float64(int(v*100+0.5)) / 100`. -/
def roundTo2Decimals {α : Type*} [LinearOrderedField α] [FloorRing α] (v : α) : α :=
  (goTrunc (v * 100 + 1 / 2) : α) / 100

/-- `roundTo1Decimal` from `indexservice.go`: `float64(int(v*10+0.5)) / 10`. -/
def roundTo1Decimal {α : Type*} [LinearOrderedField α] [FloorRing α] (v : α) : α :=
  (goTrunc (v * 10 + 1 / 2) : α) / 10

section RoundLemmas

variable {α : Type*} [LinearOrderedField α] [FloorRing α]

theorem goRound_mono {x y : α} (h : x ≤ y) : goRound x ≤ goRound y := by
  unfold goRound
  by_cases hx : 0 ≤ x
  · rw [if_pos hx, if_pos (hx.trans h)]
    exact Int.floor_le_floor (by linarith)
  · rw [if_neg hx]
    by_cases hy : 0 ≤ y
    · rw [if_pos hy]
      have h1 : ⌈x - 1 / 2⌉ ≤ ⌈(-(1:α)) / 2⌉ := Int.ceil_le_ceil (by push_neg at hx; linarith)
      have h2 : ⌈(-(1:α)) / 2⌉ = 0 := by
        rw [Int.ceil_eq_zero_iff]
        constructor <;> norm_num
      have h3 : (0 : ℤ) ≤ ⌊y + 1 / 2⌋ := by
        rw [Int.le_floor]
        push_cast
        linarith
      omega
    · rw [if_neg hy]
      exact Int.ceil_le_ceil (by linarith)

theorem goRound_intCast (k : ℤ) : goRound (k : α) = k := by
  unfold goRound
  by_cases hk : 0 ≤ (k : α)
  · rw [if_pos hk, Int.floor_eq_iff]
    constructor <;> [push_cast; push_cast] <;> linarith
  · rw [if_neg hk, Int.ceil_eq_iff]
    constructor <;> [push_cast; push_cast] <;> linarith

theorem round2_mono {x y : α} (h : x ≤ y) : round2 x ≤ round2 y := by
  unfold round2
  have := goRound_mono (α := α) (mul_le_mul_of_nonneg_right h (by norm_num : (0:α) ≤ 100))
  have hcast : ((goRound (x * 100) : ℤ) : α) ≤ ((goRound (y * 100) : ℤ) : α) := by
    exact_mod_cast this
  linarith

/-- `round2` fixes exact multiples of `1/100`. -/
theorem round2_int_div_hundred (k : ℤ) : round2 ((k : α) / 100) = (k : α) / 100 := by
  unfold round2
  rw [div_mul_cancel₀ _ (by norm_num : (100:α) ≠ 0), goRound_intCast]

theorem round2_zero : round2 (0 : α) = 0 := by
  have := round2_int_div_hundred (α := α) 0
  simpa using this

/-- `round2` fixes integers. -/
theorem round2_intCast (k : ℤ) : round2 ((k : α)) = (k : α) := by
  have h := round2_int_div_hundred (α := α) (100 * k)
  rw [show (((100 * k : ℤ) : α) / 100) = (k : α) by push_cast; ring] at h
  exact h

end RoundLemmas

/-! ## The monthly growth simulator (`simulate.go`) -/

/-- `MonthProjection` from `simulate.go`: the portfolio state at the end of
one simulated month. -/
structure MonthProjection where
  year : ℤ
  month : ℤ
  monthlyContribution : ℝ
  totalContributed : ℝ
  portfolioValue : ℝ
  pessimisticValue : Option ℝ
  optimisticValue : Option ℝ

/-- The zero projection, standing in for Go's zero value. -/
def defaultProjection : MonthProjection :=
  { year := 0, month := 0, monthlyContribution := 0, totalContributed := 0,
    portfolioValue := 0, pessimisticValue := none, optimisticValue := none }

instance : Inhabited MonthProjection := ⟨defaultProjection⟩

/-- The month-advance step at the top of the loop body of `simulateMonthly`:
`currentMonth++; if currentMonth > 12 { currentMonth = 1; currentYear++ }`. -/
def advanceMonth (y m : ℤ) : ℤ × ℤ :=
  if 12 < m + 1 then (y + 1, 1) else (y, m + 1)

/-- The loop of `simulateMonthly`, one iteration per remaining month.
State: current year/month, running balance, current monthly contribution,
running total contributed; `mrr`/`mcg` are the precomputed monthly return
and contribution-growth rates. -/
noncomputable def simLoop (n : ℕ) (y m : ℤ) (balance contrib totalContrib mrr mcg : ℝ) :
    List MonthProjection :=
  match n with
  | 0 => []
  | Nat.succ k =>
    let ym := advanceMonth y m
    let newBalance := balance * (1 + mrr) + contrib
    let newTotal := totalContrib + contrib
    { year := ym.1, month := ym.2,
      monthlyContribution := round2 contrib,
      totalContributed := round2 newTotal,
      portfolioValue := round2 newBalance,
      pessimisticValue := none, optimisticValue := none } ::
      simLoop k ym.1 ym.2 newBalance (contrib * (1 + mcg)) newTotal mrr mcg

/-- `simulateMonthly` from `simulate.go`: month-by-month portfolio growth with
growing contributions.  `math.Pow` is idealised as `Real.rpow`. -/
noncomputable def simulateMonthly (initial monthlyBase : ℝ) (startYear startMonth : ℤ)
    (totalMonths : ℕ) (annualRate contributionGrowth : ℝ) : List MonthProjection :=
  let monthlyReturnRate := (1 + annualRate / 100) ^ ((1 : ℝ) / 12) - 1
  let monthlyContributionGrowth := (1 + contributionGrowth / 100) ^ ((1 : ℝ) / 12) - 1
  simLoop totalMonths startYear startMonth initial monthlyBase initial
    monthlyReturnRate monthlyContributionGrowth

theorem simLoop_length (n : ℕ) :
    ∀ y m balance contrib totalContrib mrr mcg,
      (simLoop n y m balance contrib totalContrib mrr mcg).length = n := by
  induction n with
  | zero => intro y m balance contrib totalContrib mrr mcg; rfl
  | succ k ih =>
    intro y m balance contrib totalContrib mrr mcg
    simp only [simLoop, List.length_cons, ih]

theorem simulateMonthly_length (initial monthlyBase : ℝ) (startYear startMonth : ℤ)
    (totalMonths : ℕ) (annualRate contributionGrowth : ℝ) :
    (simulateMonthly initial monthlyBase startYear startMonth totalMonths
      annualRate contributionGrowth).length = totalMonths := by
  unfold simulateMonthly
  exact simLoop_length _ _ _ _ _ _ _ _

/-! ## Summary and contribution milestones (`simulate.go`) -/

/-- `ContributionMilestone` from `simulate.go`. -/
structure ContributionMilestone where
  year : ℤ
  yearsFromNow : ℤ
  monthlyContribution : ℝ

instance : Inhabited ContributionMilestone := ⟨0, 0, 0⟩

/-- The set of milestone years of `buildContributionMilestones`: the Go loop
`for y := 5; y <= totalYears; y += 5 { milestoneYears[startYear+y] = true }`
followed by `milestoneYears[finalYear] = true`.  The Go `map[int]bool` is
modelled as the list of years it marks (only membership is ever read). -/
def milestoneYearList (startYear finalYear : ℤ) : List ℤ :=
  ((List.range ((finalYear - startYear).toNat / 5 + 1)).filterMap
    (fun k => if 1 ≤ k then some (startYear + 5 * (k : ℤ)) else none)) ++ [finalYear]

/-- One step of the scan over projections in `buildContributionMilestones`:
the accumulator carries the milestone list built so far and the `addedYears`
set (as the list of years added). -/
def milestoneStep (myears : List ℤ) (startYear : ℤ)
    (acc : List ContributionMilestone × List ℤ) (p : MonthProjection) :
    List ContributionMilestone × List ℤ :=
  if p.year ∈ myears ∧ p.year ∉ acc.2 ∧ p.month = 1 then
    (acc.1 ++ [{ year := p.year, yearsFromNow := p.year - startYear,
                 monthlyContribution := p.monthlyContribution }],
     acc.2 ++ [p.year])
  else acc

/-- `buildContributionMilestones` from `simulate.go`: contribution values at
5-year anniversaries plus the final year, taking the January entry of a
milestone year when one exists, and falling back to the final projection for
the final year.  Go reads `projections[len(projections)-1]`, which panics on
an empty list; the model totalises that access with `defaultProjection`. -/
def buildContributionMilestones (projections : List MonthProjection) (startYear : ℤ) :
    List ContributionMilestone :=
  let finalProj := projections.getLastD defaultProjection
  let myears := milestoneYearList startYear finalProj.year
  let scanned := projections.foldl (milestoneStep myears startYear) ([], [])
  if finalProj.year ∈ scanned.2 then scanned.1
  else scanned.1 ++ [{ year := finalProj.year, yearsFromNow := finalProj.year - startYear,
                       monthlyContribution := finalProj.monthlyContribution }]

/-- `SimulateSummary` from `simulate.go`.  `TargetDate` is a formatted label
`time.Month(endMonth).String() + " " + year`; the model keeps the two numbers
it is rendered from.  The optional fields are set only by the range path. -/
structure SimulateSummary where
  targetDateMonth : ℤ
  targetDateYear : ℤ
  finalValue : ℝ
  totalContributed : ℝ
  totalGain : ℝ
  percentageGain : ℝ
  totalMonths : ℕ
  finalMonthlyContribution : ℝ
  contributionMilestones : List ContributionMilestone
  hasRange : Bool
  pessimisticValue : Option ℝ
  optimisticValue : Option ℝ
  pessimisticGain : Option ℝ
  optimisticGain : Option ℝ
  pessimisticPercent : Option ℝ
  optimisticPercent : Option ℝ

/-- `buildSummary` from `simulate.go`. -/
noncomputable def buildSummary (projections : List MonthProjection) (totalMonths : ℕ)
    (endYear endMonth startYear : ℤ) : SimulateSummary :=
  let finalProjection := projections.getLastD defaultProjection
  let totalContributed := finalProjection.totalContributed
  let totalGain := finalProjection.portfolioValue - totalContributed
  let percentageGain :=
    if 0 < totalContributed then round1 ((totalGain / totalContributed) * 100) else 0
  { targetDateMonth := endMonth, targetDateYear := endYear,
    finalValue := round2 finalProjection.portfolioValue,
    totalContributed := round2 totalContributed,
    totalGain := round2 totalGain,
    percentageGain := percentageGain,
    totalMonths := totalMonths,
    finalMonthlyContribution := finalProjection.monthlyContribution,
    contributionMilestones := buildContributionMilestones projections startYear,
    hasRange := false,
    pessimisticValue := none, optimisticValue := none,
    pessimisticGain := none, optimisticGain := none,
    pessimisticPercent := none, optimisticPercent := none }

/-- `indexReturnRates` from `simulate.go`. -/
structure IndexReturnRates where
  median : ℝ
  pessimistic : ℝ
  optimistic : ℝ

/-- `simulateWithRange` from `simulate.go`: runs the three simulations, merges
them index-by-index (the Go `for i := range medianProj` loop is modelled as a
map over `List.range`), then builds the summary and attaches the range
values. -/
noncomputable def simulateWithRange (initial monthlyBase : ℝ) (startYear startMonth : ℤ)
    (totalMonths : ℕ) (rates : IndexReturnRates) (contributionGrowth : ℝ)
    (endYear endMonth : ℤ) : List MonthProjection × SimulateSummary :=
  let medianProj := simulateMonthly initial monthlyBase startYear startMonth totalMonths
    rates.median contributionGrowth
  let pessimisticProj := simulateMonthly initial monthlyBase startYear startMonth totalMonths
    rates.pessimistic contributionGrowth
  let optimisticProj := simulateMonthly initial monthlyBase startYear startMonth totalMonths
    rates.optimistic contributionGrowth
  let projections := (List.range medianProj.length).map (fun i =>
    let m := medianProj.getD i defaultProjection
    { year := m.year, month := m.month,
      monthlyContribution := m.monthlyContribution,
      totalContributed := m.totalContributed,
      portfolioValue := m.portfolioValue,
      pessimisticValue := some ((pessimisticProj.getD i defaultProjection).portfolioValue),
      optimisticValue := some ((optimisticProj.getD i defaultProjection).portfolioValue) })
  let summary := buildSummary projections totalMonths endYear endMonth startYear
  let finalPess := pessimisticProj.getLastD defaultProjection
  let finalOpt := optimisticProj.getLastD defaultProjection
  let totalContributed := summary.totalContributed
  let pessGain := finalPess.portfolioValue - totalContributed
  let optGain := finalOpt.portfolioValue - totalContributed
  let pessPercent :=
    if 0 < totalContributed then round1 ((pessGain / totalContributed) * 100) else 0
  let optPercent :=
    if 0 < totalContributed then round1 ((optGain / totalContributed) * 100) else 0
  (projections,
   { summary with
       hasRange := true,
       pessimisticValue := some (round2 finalPess.portfolioValue),
       optimisticValue := some (round2 finalOpt.portfolioValue),
       pessimisticGain := some (round2 pessGain),
       optimisticGain := some (round2 optGain),
       pessimisticPercent := some pessPercent,
       optimisticPercent := some optPercent })

/-! ## The return-statistics engine (`yahoo.go`) -/

/-- `PointsPerYear` from `yahoo.go`. -/
def PointsPerYear (interval : String) : ℕ :=
  if interval = "1d" then 252
  else if interval = "1wk" then 52
  else if interval = "1mo" then 12
  else if interval = "3mo" then 4
  else 12

/-- `PricePoint` from `yahoo.go`, restricted to the field `CalculateStats`
reads: the adjusted close.  (Date, open/high/low/close and volume are carried
by the Go struct but never used by the verified functions.) -/
structure PricePoint where
  adjClose : ℝ

/-- `HistoricalData` from `yahoo.go`, restricted to the fields `CalculateStats`
reads.  (`Currency` and `FetchedAt` are never used by the verified code.) -/
structure HistoricalData where
  symbol : String
  interval : String
  dataPoints : List PricePoint

/-- The errors `CalculateStats` can return: the insufficient-data error
(`need at least %d data points ..., got %d`) and the
`no valid rolling returns calculated` error. -/
inductive CalcError where
  | insufficientData (need got : ℕ)
  | noValidReturns
deriving DecidableEq

/-- The annualized return computed inside the rolling loop of
`CalculateStats`: `((endPrice/startPrice)^(1/years) - 1) * 100`. -/
noncomputable def annualizedReturnOf (startPrice endPrice : ℝ) (rollingYears : ℕ) : ℝ :=
  ((endPrice / startPrice) ^ (1 / (rollingYears : ℝ)) - 1) * 100

/-- The rolling loop of `CalculateStats`:
`for i := rollingPeriod; i < len(points); i++`, reindexed by
`k = i - rollingPeriod`.  A sample is skipped when either price is
nonpositive, and filtered out when the annualized return is outside
`(-50, 100)`. -/
noncomputable def rollingSamples (prices : List ℝ) (rollingPeriod rollingYears : ℕ) :
    List ℝ :=
  (List.range (prices.length - rollingPeriod)).filterMap (fun k =>
    let startPrice := prices.getD k 0
    let endPrice := prices.getD (k + rollingPeriod) 0
    if startPrice ≤ 0 ∨ endPrice ≤ 0 then none
    else
      let r := annualizedReturnOf startPrice endPrice rollingYears
      if -50 < r ∧ r < 100 then some r else none)

/-- `percentile` from `yahoo.go`: the p-th percentile of a sorted slice by
linear interpolation between adjacent ranks.  Go indexes `sorted[lower]`
directly (panicking out of range); the model totalises the access with
default `0` — all uses stay within `p ∈ [0, 100]` on nonempty input, where
the indices are in range. -/
def percentile {α : Type*} [LinearOrderedField α] [FloorRing α]
    (sorted : List α) (p : α) : α :=
  if sorted = [] then 0
  else
    let index := (p / 100) * ((sorted.length : α) - 1)
    let lower := ⌊index⌋
    let upper := ⌈index⌉
    if lower = upper ∨ (sorted.length : ℤ) ≤ upper then sorted.getD lower.toNat 0
    else
      let weight := index - (lower : α)
      sorted.getD lower.toNat 0 * (1 - weight) + sorted.getD upper.toNat 0 * weight

/-- `standardDeviation` from `yahoo.go` (population standard deviation). -/
noncomputable def standardDeviation (values : List ℝ) : ℝ :=
  if values = [] then 0
  else
    let mean := values.sum / (values.length : ℝ)
    let variance := (values.map (fun v => (v - mean) * (v - mean))).sum / (values.length : ℝ)
    Real.sqrt variance

/-- `IndexStats` from `yahoo.go`.  The data start/end dates and the
`CalculatedAt` timestamp are dropped (pure time bookkeeping). -/
structure IndexStats where
  symbol : String
  totalYears : ℝ
  annualizedReturn : ℝ
  percentile5Return : ℝ
  percentile95Return : ℝ
  standardDeviation : ℝ
  rollingReturns : List ℝ

/-- `CalculateStats` from `yahoo.go`: rolling annualized returns, then
median / 5th / 95th percentiles of the ascending-sorted samples (Go's
`sort.Float64s` is modelled by `List.insertionSort`) and the standard
deviation. -/
noncomputable def CalculateStats (data : HistoricalData) (rollingYears : ℕ) :
    Except CalcError IndexStats :=
  let pointsPerYear := PointsPerYear data.interval
  let requiredPoints := pointsPerYear * rollingYears
  if data.dataPoints.length < requiredPoints then
    .error (.insufficientData requiredPoints data.dataPoints.length)
  else
    let rollingReturns :=
      rollingSamples (data.dataPoints.map PricePoint.adjClose)
        (rollingYears * pointsPerYear) rollingYears
    if rollingReturns = [] then .error .noValidReturns
    else
      let sorted := rollingReturns.insertionSort (· ≤ ·)
      .ok { symbol := data.symbol,
            totalYears := (data.dataPoints.length : ℝ) / (pointsPerYear : ℝ),
            annualizedReturn := percentile sorted 50,
            percentile5Return := percentile sorted 5,
            percentile95Return := percentile sorted 95,
            standardDeviation := standardDeviation rollingReturns,
            rollingReturns := rollingReturns }

/-! ## The index service (`indexservice.go`) -/

/-- `SupportedIndex` from `indexservice.go`. -/
structure SupportedIndex where
  symbol : String
  name : String
  description : String

/-- `DefaultSupportedIndexes` from `indexservice.go`. -/
def DefaultSupportedIndexes : List SupportedIndex :=
  [⟨"SPY", "S&P 500", "500 largest US companies"⟩,
   ⟨"QQQ", "NASDAQ 100", "100 largest non-financial NASDAQ companies"⟩,
   ⟨"EFA", "MSCI EAFE", "Developed markets excluding US & Canada"⟩]

/-- `IndexInfo` from `indexservice.go` (the `DataStartDate` label is
dropped). -/
structure IndexInfo where
  symbol : String
  name : String
  description : String
  medianReturn : ℝ
  pessimisticReturn : ℝ
  optimisticReturn : ℝ
  standardDeviation : ℝ
  dataYears : ℝ
  rollingPeriodYears : ℕ

instance : Inhabited IndexInfo := ⟨"", "", "", 0, 0, 0, 0, 0, 0⟩

/-- Errors of the per-symbol load path of `fetchAndCalculate`. -/
inductive ServiceError where
  | fetchFailed (msg : String)
  | calcFailed (e : CalcError)
deriving DecidableEq

/-- The `IndexInfo` built at the end of `fetchAndCalculate`. -/
noncomputable def toIndexInfo (idx : SupportedIndex) (rollingYears : ℕ)
    (stats : IndexStats) : IndexInfo :=
  { symbol := idx.symbol, name := idx.name, description := idx.description,
    medianReturn := roundTo2Decimals stats.annualizedReturn,
    pessimisticReturn := roundTo2Decimals stats.percentile5Return,
    optimisticReturn := roundTo2Decimals stats.percentile95Return,
    standardDeviation := roundTo2Decimals stats.standardDeviation,
    dataYears := roundTo1Decimal stats.totalYears,
    rollingPeriodYears := rollingYears }

/-- `fetchAndCalculate` from `indexservice.go`, with the network fetch
(`FetchHistoricalData(symbol, "1mo", "max")`) abstracted as the `fetch`
parameter: try a 20-year rolling window, and on any `CalculateStats` error
retry with a 10-year window. -/
noncomputable def fetchAndCalculate (fetch : String → Except String HistoricalData)
    (idx : SupportedIndex) : Except ServiceError IndexInfo :=
  match fetch idx.symbol with
  | .error msg => .error (.fetchFailed msg)
  | .ok data =>
    match CalculateStats data 20 with
    | .ok stats => .ok (toIndexInfo idx 20 stats)
    | .error _ =>
      match CalculateStats data 10 with
      | .ok stats => .ok (toIndexInfo idx 10 stats)
      | .error e => .error (.calcFailed e)

/-- One iteration of the loop of `Initialize`: a symbol that loads is
inserted into the cache, a failure is skipped (the Go code logs and
continues). -/
noncomputable def initializeStep (fetch : String → Except String HistoricalData)
    (acc : List (String × IndexInfo)) (idx : SupportedIndex) :
    List (String × IndexInfo) :=
  match fetchAndCalculate fetch idx with
  | .error _ => acc
  | .ok info => acc ++ [(idx.symbol, info)]

/-- The cache built by the loop of `Initialize`. -/
noncomputable def initializeCache (fetch : String → Except String HistoricalData)
    (indexes : List SupportedIndex) : List (String × IndexInfo) :=
  indexes.foldl (initializeStep fetch) []

/-- `Initialize` from `indexservice.go`: load every supported index,
continuing past individual failures; fail overall only when the cache stayed
empty (`failed to load any index data`). -/
noncomputable def Initialize (fetch : String → Except String HistoricalData) :
    Except String (List (String × IndexInfo)) :=
  let cache := initializeCache fetch DefaultSupportedIndexes
  if cache.isEmpty then .error "failed to load any index data" else .ok cache

/-! ## Portfolio blending (`simulate.go`, `calculatePortfolioRates`) -/

/-- `PortfolioAllocation` from `simulate.go`. -/
structure PortfolioAllocation where
  symbol : String
  weight : ℝ

/-- `PortfolioBreakdown` from `simulate.go`. -/
structure PortfolioBreakdown where
  symbol : String
  name : String
  weight : ℝ
  medianReturn : ℝ

/-- `portfolioResult` from `simulate.go`. -/
structure PortfolioResult where
  rates : IndexReturnRates
  breakdown : List PortfolioBreakdown

/-- The errors of `calculatePortfolioRates` (Go uses error strings;
an inductive carries the same information). -/
inductive PortfolioError where
  | emptyPortfolio
  | nonpositiveWeight (symbol : String)
  | invalidWeightSum
  | unknownSymbol (symbol : String)
deriving DecidableEq

/-- The first loop of `calculatePortfolioRates`: sum the weights, failing at
the first nonpositive one. -/
noncomputable def sumWeights : List PortfolioAllocation → Except PortfolioError ℝ
  | [] => .ok 0
  | a :: rest =>
    if a.weight ≤ 0 then .error (.nonpositiveWeight a.symbol)
    else
      match sumWeights rest with
      | .error e => .error e
      | .ok s => .ok (a.weight + s)

/-- The second loop of `calculatePortfolioRates`: look up each symbol in the
cache, failing hard at the first unknown one, and accumulate the weighted
median/pessimistic/optimistic sums and the breakdown. -/
noncomputable def blendLoop (cache : String → Option IndexInfo) :
    List PortfolioAllocation → Except PortfolioError (ℝ × ℝ × ℝ × List PortfolioBreakdown)
  | [] => .ok (0, 0, 0, [])
  | a :: rest =>
    match cache a.symbol with
    | none => .error (.unknownSymbol a.symbol)
    | some info =>
      match blendLoop cache rest with
      | .error e => .error e
      | .ok (m, p, o, br) =>
        let weight := a.weight / 100
        .ok (info.medianReturn * weight + m,
             info.pessimisticReturn * weight + p,
             info.optimisticReturn * weight + o,
             { symbol := a.symbol, name := info.name, weight := a.weight,
               medianReturn := round1 info.medianReturn } :: br)

/-- `calculatePortfolioRates` from `simulate.go`: validate non-emptiness,
positive weights, weight sum within `0.01` of `100`, then blend the cached
per-symbol rates.  The handler method's `h.indexService.GetIndex` is the
`cache` parameter. -/
noncomputable def calculatePortfolioRates (cache : String → Option IndexInfo)
    (allocations : List PortfolioAllocation) : Except PortfolioError PortfolioResult :=
  if allocations.isEmpty then .error .emptyPortfolio
  else
    match sumWeights allocations with
    | .error e => .error e
    | .ok totalWeight =>
      if 0.01 < |totalWeight - 100| then .error .invalidWeightSum
      else
        match blendLoop cache allocations with
        | .error e => .error e
        | .ok (m, p, o, br) =>
          .ok { rates := { median := m, pessimistic := p, optimistic := o },
                breakdown := br }

/-! ## General list helpers -/

theorem getLastD_mem {α : Type*} : ∀ (l : List α) (d : α), l ≠ [] → l.getLastD d ∈ l
  | [], _, h => absurd rfl h
  | [a], d, _ => by simp [List.getLastD_cons]
  | a :: b :: l, d, _ => by
    rw [List.getLastD_cons]
    exact List.mem_cons_of_mem a (getLastD_mem (b :: l) a (by simp))

theorem getLastD_eq_of_ne_nil {α : Type*} :
    ∀ (l : List α) (d d' : α), l ≠ [] → l.getLastD d = l.getLastD d'
  | [], _, _, h => absurd rfl h
  | [a], _, _, _ => by simp [List.getLastD_cons]
  | a :: b :: l, d, d', _ => by
    simp only [List.getLastD_cons]

theorem filterMap_length_of_forall_some {α β : Type*} {f : α → Option β} :
    ∀ {l : List α}, (∀ x ∈ l, (f x).isSome) → (l.filterMap f).length = l.length := by
  intro l
  induction l with
  | nil => intro _; rfl
  | cons a l ih =>
    intro h
    have ha := h a (List.mem_cons_self a l)
    obtain ⟨b, hb⟩ := Option.isSome_iff_exists.mp ha
    rw [List.filterMap_cons, hb]
    simp only [List.length_cons]
    rw [ih (fun x hx => h x (List.mem_cons_of_mem a hx))]

/-! ## Claim C10 -/

/-- C10: for every `totalMonths ≥ 0`, `simulateMonthly` returns a projection
list of length exactly `totalMonths`; under the handlers' validated
precondition `totalMonths ≥ 1` the list is non-empty, so the final-element
accesses (`projections[len(projections)-1]`) in `buildSummary` and
`buildContributionMilestones` are within bounds. -/
theorem C10_simulateMonthly_length_safe (initial monthlyBase : ℝ)
    (startYear startMonth : ℤ) (totalMonths : ℕ) (annualRate contributionGrowth : ℝ) :
    (simulateMonthly initial monthlyBase startYear startMonth totalMonths
      annualRate contributionGrowth).length = totalMonths ∧
    (1 ≤ totalMonths →
      simulateMonthly initial monthlyBase startYear startMonth totalMonths
        annualRate contributionGrowth ≠ []) := by
  refine ⟨simulateMonthly_length _ _ _ _ _ _ _, fun h => ?_⟩
  have hlen := simulateMonthly_length initial monthlyBase startYear startMonth totalMonths
    annualRate contributionGrowth
  intro hnil
  rw [hnil] at hlen
  simp only [List.length_nil] at hlen
  omega

/-- Witness for C10 at a concrete input. -/
theorem C10_witness :
    (simulateMonthly 0 0 2020 1 5 0 0).length = 5 ∧ simulateMonthly 0 0 2020 1 5 0 0 ≠ [] :=
  ⟨(C10_simulateMonthly_length_safe 0 0 2020 1 5 0 0).1,
   (C10_simulateMonthly_length_safe 0 0 2020 1 5 0 0).2 (by norm_num)⟩

/-! ## Claim C7 -/

/-- Modelled from the spec's range-mode contract: run the single-rate
simulation three times over identical parameters, then zip the three
projection lists index-by-index into one list carrying the median values as
primary and the other two portfolio values as optional bounds. -/
noncomputable def specMergeRange (medianProj pessimisticProj optimisticProj :
    List MonthProjection) : List MonthProjection :=
  List.zipWith (fun m pq =>
    { year := m.year, month := m.month,
      monthlyContribution := m.monthlyContribution,
      totalContributed := m.totalContributed,
      portfolioValue := m.portfolioValue,
      pessimisticValue := some pq.1.portfolioValue,
      optimisticValue := some pq.2.portfolioValue })
    medianProj (pessimisticProj.zip optimisticProj)

/-- C7: the projection list of `simulateWithRange` equals the index-by-index
zip of three independent `simulateMonthly` runs at the median, pessimistic
and optimistic rates: element `i` carries exactly the year, month,
contribution and portfolio value of element `i` of the median run, with the
portfolio values of the other two runs attached as the optional bounds.  All
three runs are pure applications of `simulateMonthly` over identical
parameters with no shared state, so their relative execution order cannot
affect the result. -/
theorem C7_range_is_zipped_runs (initial monthlyBase : ℝ) (startYear startMonth : ℤ)
    (totalMonths : ℕ) (rates : IndexReturnRates) (contributionGrowth : ℝ)
    (endYear endMonth : ℤ) :
    (simulateWithRange initial monthlyBase startYear startMonth totalMonths rates
      contributionGrowth endYear endMonth).1 =
    specMergeRange
      (simulateMonthly initial monthlyBase startYear startMonth totalMonths
        rates.median contributionGrowth)
      (simulateMonthly initial monthlyBase startYear startMonth totalMonths
        rates.pessimistic contributionGrowth)
      (simulateMonthly initial monthlyBase startYear startMonth totalMonths
        rates.optimistic contributionGrowth) := by
  unfold simulateWithRange specMergeRange
  have hm := simulateMonthly_length initial monthlyBase startYear startMonth totalMonths
    rates.median contributionGrowth
  have hp := simulateMonthly_length initial monthlyBase startYear startMonth totalMonths
    rates.pessimistic contributionGrowth
  have ho := simulateMonthly_length initial monthlyBase startYear startMonth totalMonths
    rates.optimistic contributionGrowth
  apply List.ext_getElem
  · simp only [List.length_map, List.length_range, List.length_zipWith, List.length_zip,
      hm, hp, ho]
    omega
  · intro n h1 h2
    simp only [List.length_map, List.length_range, hm] at h1
    rw [List.getElem_map, List.getElem_range, List.getElem_zipWith, List.getElem_zip]
    rw [List.getD_eq_getElem _ _ (by omega : n < (simulateMonthly initial monthlyBase
      startYear startMonth totalMonths rates.median contributionGrowth).length)]
    rw [List.getD_eq_getElem _ _ (by omega : n < (simulateMonthly initial monthlyBase
      startYear startMonth totalMonths rates.pessimistic contributionGrowth).length)]
    rw [List.getD_eq_getElem _ _ (by omega : n < (simulateMonthly initial monthlyBase
      startYear startMonth totalMonths rates.optimistic contributionGrowth).length)]

/-! ## Claim C2 -/

/-- With `annualRate = 0` the monthly return rate `(1+0)^(1/12) - 1` is `0`,
and likewise for `contributionGrowth = 0`. -/
theorem simulateMonthly_zero_rates (initial monthlyBase : ℝ) (startYear startMonth : ℤ)
    (totalMonths : ℕ) :
    simulateMonthly initial monthlyBase startYear startMonth totalMonths 0 0 =
      simLoop totalMonths startYear startMonth initial monthlyBase initial 0 0 := by
  unfold simulateMonthly
  norm_num [Real.one_rpow]

/-- With both monthly rates zero, the last recorded portfolio value is the
rounded exact sum `balance + contrib * n`. -/
theorem simLoop_last_value_zero_rates :
    ∀ (n : ℕ) (y m : ℤ) (balance contrib totalContrib : ℝ) (d : MonthProjection),
      1 ≤ n →
      ((simLoop n y m balance contrib totalContrib 0 0).getLastD d).portfolioValue =
        round2 (balance + contrib * n) := by
  intro n
  induction n with
  | zero => intro _ _ _ _ _ _ h; omega
  | succ k ih =>
    intro y m balance contrib totalContrib d _
    by_cases hk : 1 ≤ k
    · rw [simLoop, List.getLastD_cons]
      rw [ih _ _ _ _ _ _ hk]
      congr 1
      push_cast
      ring
    · have hk0 : k = 0 := by omega
      subst hk0
      simp only [simLoop, List.getLastD_cons, List.getLastD_nil]
      congr 1
      push_cast
      ring

/-- With both monthly rates zero, every recorded monthly contribution is the
rounded base contribution (`contrib` never grows). -/
theorem simLoop_monthlyContribution_const :
    ∀ (n : ℕ) (y m : ℤ) (balance contrib totalContrib mrr : ℝ) (p : MonthProjection),
      p ∈ simLoop n y m balance contrib totalContrib mrr 0 →
      p.monthlyContribution = round2 contrib := by
  intro n
  induction n with
  | zero => intro _ _ _ _ _ _ p hp; simp [simLoop] at hp
  | succ k ih =>
    intro y m balance contrib totalContrib mrr p hp
    rw [simLoop] at hp
    rcases List.mem_cons.mp hp with h | h
    · rw [h]
    · have := ih _ _ _ _ _ _ p h
      rw [this]
      norm_num

/-- C2 counterexample: the claim quantifies over every `initial ≥ 0`, but the
simulator stores `round2`-rounded values, so an initial amount that is not a
whole number of cents is not returned exactly: with `initial = 0.001`,
`monthlyBase = 0`, `totalMonths = 1` and both rates zero, the final
`PortfolioValue` is `0`, not `0.001 + 0 × 1`. -/
theorem C2_counterexample :
    ((simulateMonthly (1 / 1000) 0 2020 1 1 0 0).getLastD
        defaultProjection).portfolioValue ≠ 1 / 1000 + 0 * (1 : ℝ) := by
  rw [simulateMonthly_zero_rates, simLoop_last_value_zero_rates 1 2020 1 (1 / 1000) 0
    (1 / 1000) defaultProjection (by norm_num)]
  unfold round2 goRound
  rw [if_pos (by norm_num : (0:ℝ) ≤ (1 / 1000 + 0 * (1:ℕ)) * 100)]
  have h : ⌊(1 / 1000 + 0 * ((1:ℕ):ℝ)) * 100 + 1 / 2⌋ = 0 := by
    rw [Int.floor_eq_zero_iff]
    constructor <;> norm_num
  rw [h]
  norm_num

/-- C2 (amended): with `annualRate = 0` and `contributionGrowth = 0`, and the
initial amount and base contribution whole numbers of cents (integer
multiples of `0.01`, which `round2` fixes), the final `PortfolioValue` of
`simulateMonthly` — and the summary's `FinalValue` — equals
`initial + monthlyBase × totalMonths` exactly. -/
theorem C2_zero_rate_exact_final_value (ki kb : ℤ) (initial monthlyBase : ℝ)
    (startYear startMonth endYear endMonth : ℤ) (totalMonths : ℕ)
    (hki : initial = (ki : ℝ) / 100) (hkb : monthlyBase = (kb : ℝ) / 100)
    (hi : 0 ≤ initial) (hb : 0 ≤ monthlyBase) (htm : 1 ≤ totalMonths) :
    ((simulateMonthly initial monthlyBase startYear startMonth totalMonths 0 0).getLastD
        defaultProjection).portfolioValue = initial + monthlyBase * totalMonths ∧
    (buildSummary (simulateMonthly initial monthlyBase startYear startMonth totalMonths 0 0)
        totalMonths endYear endMonth startYear).finalValue =
      initial + monthlyBase * totalMonths := by
  have hexact : initial + monthlyBase * (totalMonths : ℝ) =
      ((ki + kb * totalMonths : ℤ) : ℝ) / 100 := by
    rw [hki, hkb]
    push_cast
    ring
  have hlast : ((simulateMonthly initial monthlyBase startYear startMonth totalMonths 0
      0).getLastD defaultProjection).portfolioValue =
      initial + monthlyBase * totalMonths := by
    rw [simulateMonthly_zero_rates, simLoop_last_value_zero_rates _ _ _ _ _ _ _ htm]
    rw [show initial + monthlyBase * (totalMonths : ℝ) = initial + monthlyBase * totalMonths
      from rfl, hexact, round2_int_div_hundred]
  refine ⟨hlast, ?_⟩
  unfold buildSummary
  simp only
  rw [hlast, hexact, round2_int_div_hundred]

/-- Witness for C2 (amended) at `initial = 1`, `monthlyBase = 2`,
`totalMonths = 3`. -/
theorem C2_witness :
    ((simulateMonthly 1 2 2020 1 3 0 0).getLastD defaultProjection).portfolioValue =
      1 + 2 * ((3:ℕ) : ℝ) ∧
    (buildSummary (simulateMonthly 1 2 2020 1 3 0 0) 3 2021 1 2020).finalValue =
      1 + 2 * ((3:ℕ) : ℝ) :=
  C2_zero_rate_exact_final_value 100 200 1 2 2020 1 2021 1 3
    (by norm_num) (by norm_num) (by norm_num) (by norm_num) (by norm_num)

/-! ## Claim C1 -/

/-- `simulateMonthly` with zero contribution growth: the monthly contribution
growth factor is `(1+0)^(1/12) - 1 = 0`. -/
theorem simulateMonthly_growth_zero (initial monthlyBase : ℝ) (startYear startMonth : ℤ)
    (totalMonths : ℕ) (annualRate : ℝ) :
    simulateMonthly initial monthlyBase startYear startMonth totalMonths annualRate 0 =
      simLoop totalMonths startYear startMonth initial monthlyBase initial
        ((1 + annualRate / 100) ^ ((1 : ℝ) / 12) - 1) 0 := by
  unfold simulateMonthly
  norm_num [Real.one_rpow]

/-- The milestone scan preserves: every accumulated milestone carries the
common contribution `c`, and the milestone list and the added-years list grow
in lockstep. -/
theorem milestoneFold_inv (myears : List ℤ) (startYear : ℤ) (c : ℝ) :
    ∀ (ps : List MonthProjection) (acc : List ContributionMilestone × List ℤ),
      (∀ p ∈ ps, p.monthlyContribution = c) →
      (∀ x ∈ acc.1, x.monthlyContribution = c) →
      acc.1.length = acc.2.length →
      (∀ x ∈ (ps.foldl (milestoneStep myears startYear) acc).1,
        x.monthlyContribution = c) ∧
      (ps.foldl (milestoneStep myears startYear) acc).1.length =
        (ps.foldl (milestoneStep myears startYear) acc).2.length := by
  intro ps
  induction ps with
  | nil => intro acc _ h2 h3; exact ⟨h2, h3⟩
  | cons p ps ih =>
    intro acc h1 h2 h3
    rw [List.foldl_cons]
    apply ih
    · intro q hq
      exact h1 q (List.mem_cons_of_mem p hq)
    · unfold milestoneStep
      split_ifs with h
      · intro x hx
        rcases List.mem_append.mp hx with hx | hx
        · exact h2 x hx
        · rw [List.mem_singleton.mp hx]
          exact h1 p (List.mem_cons_self p ps)
      · exact h2
    · unfold milestoneStep
      split_ifs with h
      · simp only [List.length_append, List.length_singleton, h3]
      · exact h3

/-- When every projection carries the same monthly contribution `c`, the
milestone list is non-empty and every milestone carries `c`. -/
theorem buildContributionMilestones_const (projections : List MonthProjection)
    (startYear : ℤ) (c : ℝ) (hne : projections ≠ [])
    (hmc : ∀ p ∈ projections, p.monthlyContribution = c) :
    buildContributionMilestones projections startYear ≠ [] ∧
    ∀ x ∈ buildContributionMilestones projections startYear,
      x.monthlyContribution = c := by
  unfold buildContributionMilestones
  obtain ⟨hall, hlen⟩ := milestoneFold_inv
    (milestoneYearList startYear (projections.getLastD defaultProjection).year) startYear c
    projections ([], []) hmc (by intro x hx; simp at hx) rfl
  by_cases hfin : (projections.getLastD defaultProjection).year ∈
      (projections.foldl (milestoneStep
        (milestoneYearList startYear (projections.getLastD defaultProjection).year)
        startYear) ([], [])).2
  · rw [if_pos hfin]
    refine ⟨?_, hall⟩
    have h2ne := List.ne_nil_of_mem hfin
    intro h1nil
    rw [h1nil] at hlen
    simp only [List.length_nil] at hlen
    exact h2ne (List.eq_nil_of_length_eq_zero hlen.symm)
  · rw [if_neg hfin]
    refine ⟨by simp, ?_⟩
    intro x hx
    rcases List.mem_append.mp hx with hx | hx
    · exact hall x hx
    · rw [List.mem_singleton.mp hx]
      exact hmc _ (getLastD_mem _ _ hne)

/-- C1 counterexample: with contribution growth `409500%` annually (so the
monthly factor is exactly `2`), starting December 2020 for two months, the
final year 2021 has a January entry, so the milestone list keeps January's
contribution (100) while the last projection (February 2021) carries 200. -/
theorem C1_counterexample :
    ((buildContributionMilestones (simulateMonthly 0 100 2020 12 2 0 409500)
        2020).getLastD default).monthlyContribution ≠
      ((simulateMonthly 0 100 2020 12 2 0 409500).getLastD
        defaultProjection).monthlyContribution := by
  have h4096 : (4096 : ℝ) ^ ((1 : ℝ) / 12) = 2 := by
    rw [show (4096 : ℝ) = 2 ^ ((12 : ℕ) : ℝ) by rw [Real.rpow_natCast]; norm_num]
    rw [← Real.rpow_mul (by norm_num : (0:ℝ) ≤ 2)]
    rw [show ((12 : ℕ) : ℝ) * ((1 : ℝ) / 12) = 1 by push_cast; ring, Real.rpow_one]
  have hmcg : (1 + (409500 : ℝ) / 100) ^ ((1 : ℝ) / 12) - 1 = 1 := by
    rw [show (1 + (409500 : ℝ) / 100) = 4096 by norm_num, h4096]
    norm_num
  have hmrr : (1 + (0 : ℝ) / 100) ^ ((1 : ℝ) / 12) - 1 = 0 := by
    norm_num [Real.one_rpow]
  have hsim : simulateMonthly 0 100 2020 12 2 0 409500 =
      [{ year := 2021, month := 1, monthlyContribution := round2 (100 : ℝ),
         totalContributed := round2 (100 : ℝ), portfolioValue := round2 (100 : ℝ),
         pessimisticValue := none, optimisticValue := none },
       { year := 2021, month := 2, monthlyContribution := round2 (200 : ℝ),
         totalContributed := round2 (300 : ℝ), portfolioValue := round2 (300 : ℝ),
         pessimisticValue := none, optimisticValue := none }] := by
    rw [show simulateMonthly 0 100 2020 12 2 0 409500 =
        simLoop 2 2020 12 0 100 0 ((1 + (0 : ℝ) / 100) ^ ((1 : ℝ) / 12) - 1)
          ((1 + (409500 : ℝ) / 100) ^ ((1 : ℝ) / 12) - 1) from rfl, hmrr, hmcg]
    simp only [simLoop, advanceMonth]
    norm_num
  have hr100 : round2 (100 : ℝ) = 100 := by
    rw [show (100 : ℝ) = ((100 : ℤ) : ℝ) by norm_num, round2_intCast]
  have hr200 : round2 (200 : ℝ) = 200 := by
    rw [show (200 : ℝ) = ((200 : ℤ) : ℝ) by norm_num, round2_intCast]
  rw [hsim]
  have hms : buildContributionMilestones
      [{ year := 2021, month := 1, monthlyContribution := round2 (100 : ℝ),
         totalContributed := round2 (100 : ℝ), portfolioValue := round2 (100 : ℝ),
         pessimisticValue := none, optimisticValue := none },
       { year := 2021, month := 2, monthlyContribution := round2 (200 : ℝ),
         totalContributed := round2 (300 : ℝ), portfolioValue := round2 (300 : ℝ),
         pessimisticValue := none, optimisticValue := none }] 2020 =
      [{ year := 2021, yearsFromNow := 1, monthlyContribution := round2 (100 : ℝ) }] := by
    unfold buildContributionMilestones milestoneYearList milestoneStep
    norm_num [List.getLastD_cons, List.foldl]
  rw [hms]
  simp only [List.getLastD_cons, List.getLastD_nil]
  rw [hr100, hr200]
  norm_num

/-- C1 (amended): with zero contribution growth the monthly contribution is
constant, and the last contribution milestone's `monthlyContribution` equals
the last `MonthProjection`'s `monthlyContribution`.  (With positive growth
the final milestone may instead carry the final year's January contribution,
as the counterexample shows.) -/
theorem C1_last_milestone_constant_growth (initial monthlyBase : ℝ)
    (startYear startMonth : ℤ) (totalMonths : ℕ) (annualRate : ℝ)
    (htm : 1 ≤ totalMonths) :
    ((buildContributionMilestones
        (simulateMonthly initial monthlyBase startYear startMonth totalMonths annualRate 0)
        startYear).getLastD default).monthlyContribution =
      ((simulateMonthly initial monthlyBase startYear startMonth totalMonths
          annualRate 0).getLastD defaultProjection).monthlyContribution := by
  have hlen := simulateMonthly_length initial monthlyBase startYear startMonth totalMonths
    annualRate 0
  have hne : simulateMonthly initial monthlyBase startYear startMonth totalMonths
      annualRate 0 ≠ [] := by
    intro h
    rw [h] at hlen
    simp only [List.length_nil] at hlen
    omega
  have hmc : ∀ p ∈ simulateMonthly initial monthlyBase startYear startMonth totalMonths
      annualRate 0, p.monthlyContribution = round2 monthlyBase := by
    intro p hp
    rw [simulateMonthly_growth_zero] at hp
    exact simLoop_monthlyContribution_const _ _ _ _ _ _ _ p hp
  obtain ⟨hmne, hmall⟩ := buildContributionMilestones_const _ startYear
    (round2 monthlyBase) hne hmc
  rw [hmall _ (getLastD_mem _ _ hmne), hmc _ (getLastD_mem _ _ hne)]

/-- Witness for C1 (amended) at a concrete input. -/
theorem C1_witness :
    ((buildContributionMilestones (simulateMonthly 0 0 2020 1 1 0 0)
        2020).getLastD default).monthlyContribution =
      ((simulateMonthly 0 0 2020 1 1 0 0).getLastD
        defaultProjection).monthlyContribution :=
  C1_last_milestone_constant_growth 0 0 2020 1 1 0 (by norm_num)

/-! ## Percentile lemmas (for C4 and C5) -/

section PercentileLemmas

variable {α : Type*} [LinearOrderedField α] [FloorRing α]

/-- On a nonempty list and `p ∈ [0,100]`, `percentile` always equals the
branch-free interpolation formula: the `lower == upper` branch is the weight-0
instance of it, and the `upper >= len` branch is unreachable. -/
theorem percentile_eq_interp (l : List α) (p : α) (hne : l ≠ []) (hp0 : 0 ≤ p)
    (hp1 : p ≤ 100) :
    percentile l p =
      l.getD (⌊(p / 100) * ((l.length : α) - 1)⌋).toNat 0 *
          (1 - ((p / 100) * ((l.length : α) - 1) -
            (⌊(p / 100) * ((l.length : α) - 1)⌋ : α))) +
        l.getD (⌈(p / 100) * ((l.length : α) - 1)⌉).toNat 0 *
          ((p / 100) * ((l.length : α) - 1) -
            (⌊(p / 100) * ((l.length : α) - 1)⌋ : α)) := by
  have hn : 1 ≤ l.length := List.length_pos.mpr hne
  have hn1 : (0 : α) ≤ (l.length : α) - 1 := by
    have h1 : (1 : α) ≤ (l.length : α) := by exact_mod_cast hn
    linarith
  have hceil : ⌈(p / 100) * ((l.length : α) - 1)⌉ < (l.length : ℤ) := by
    have h2 : (p / 100) * ((l.length : α) - 1) ≤ (l.length : α) - 1 :=
      mul_le_of_le_one_left hn1 ((div_le_one (by norm_num)).mpr hp1)
    have h3 : ⌈(p / 100) * ((l.length : α) - 1)⌉ ≤ (l.length : ℤ) - 1 :=
      Int.ceil_le.mpr (by push_cast; linarith)
    omega
  unfold percentile
  rw [if_neg hne]
  by_cases heq : ⌊(p / 100) * ((l.length : α) - 1)⌋ = ⌈(p / 100) * ((l.length : α) - 1)⌉
  · rw [if_pos (Or.inl heq)]
    have hint : (⌊(p / 100) * ((l.length : α) - 1)⌋ : α) = (p / 100) * ((l.length : α) - 1) :=
      le_antisymm (Int.floor_le _) (by rw [heq]; exact Int.le_ceil _)
    rw [← heq, show (p / 100) * ((l.length : α) - 1) -
      (⌊(p / 100) * ((l.length : α) - 1)⌋ : α) = 0 by rw [hint]; ring]
    ring
  · rw [if_neg (by push_neg; exact ⟨heq, by omega⟩)]

end PercentileLemmas

/-! ## Claim C4 -/

/-- Modelled from the spec: for percentile `p` and `n` samples,
`index = (p/100) × (n−1)`; interpolate linearly between the two neighboring
sorted values with weight `index − ⌊index⌋`. -/
def specInterpolation (l : List ℚ) (p : ℚ) : ℚ :=
  let index := (p / 100) * ((l.length : ℚ) - 1)
  l.getD ⌊index⌋.toNat 0 * (1 - (index - (⌊index⌋ : ℚ))) +
    l.getD ⌈index⌉.toNat 0 * (index - (⌊index⌋ : ℚ))

/-- Modelled from the spec: the conventional median — the middle element for
odd length, the mean of the two middle elements for even length. -/
def conventionalMedian (l : List ℚ) : ℚ :=
  if l.length % 2 = 1 then l.getD ((l.length - 1) / 2) 0
  else (l.getD (l.length / 2 - 1) 0 + l.getD (l.length / 2) 0) / 2

/-- C4: on a nonempty list with `p ∈ [0,100]`, `percentile` returns the value
at fractional rank `(p/100)×(n−1)` by linear interpolation between the two
neighboring sorted values, and `percentile(sorted, 50)` equals the
conventional median for every length (1, 2, and every odd and even
length ≥ 3). -/
theorem C4_percentile_interpolation_and_median (l : List ℚ) (p : ℚ)
    (hne : l ≠ []) (hp0 : 0 ≤ p) (hp1 : p ≤ 100) :
    percentile l p = specInterpolation l p ∧ percentile l 50 = conventionalMedian l := by
  constructor
  · rw [percentile_eq_interp l p hne hp0 hp1]
    rfl
  · rw [percentile_eq_interp l 50 hne (by norm_num) (by norm_num)]
    unfold conventionalMedian
    rcases Nat.even_or_odd l.length with hpar | hpar
    · obtain ⟨t, ht⟩ : ∃ t, l.length = 2 * t + 2 := by
        have hn : 1 ≤ l.length := List.length_pos.mpr hne
        obtain ⟨u, hu⟩ := hpar
        exact ⟨u - 1, by omega⟩
      have hidx : (50 / 100 : ℚ) * ((l.length : ℚ) - 1) = ((t : ℤ) : ℚ) + 1 / 2 := by
        rw [ht]
        push_cast
        ring
      have hfl : ⌊(50 / 100 : ℚ) * ((l.length : ℚ) - 1)⌋ = (t : ℤ) := by
        rw [hidx, Int.floor_int_add,
          show ⌊(1 / 2 : ℚ)⌋ = 0 by rw [Int.floor_eq_zero_iff]; constructor <;> norm_num]
        ring
      have hcl : ⌈(50 / 100 : ℚ) * ((l.length : ℚ) - 1)⌉ = (t : ℤ) + 1 := by
        rw [hidx, Int.ceil_eq_iff]
        constructor <;> [push_cast; push_cast] <;> linarith
      rw [hfl, hcl, hidx]
      rw [if_neg (by omega : ¬ l.length % 2 = 1)]
      rw [Int.toNat_natCast,
        show ((t : ℤ) + 1).toNat = t + 1 by omega,
        show l.length / 2 - 1 = t by omega, show l.length / 2 = t + 1 by omega]
      ring
    · obtain ⟨t, ht⟩ := hpar
      have hidx : (50 / 100 : ℚ) * ((l.length : ℚ) - 1) = ((t : ℤ) : ℚ) := by
        rw [ht]
        push_cast
        ring
      have hfl : ⌊(50 / 100 : ℚ) * ((l.length : ℚ) - 1)⌋ = (t : ℤ) := by
        rw [hidx, Int.floor_intCast]
      have hcl : ⌈(50 / 100 : ℚ) * ((l.length : ℚ) - 1)⌉ = (t : ℤ) := by
        rw [hidx, Int.ceil_intCast]
      rw [hfl, hcl, hidx]
      rw [if_pos (by omega : l.length % 2 = 1)]
      rw [Int.toNat_natCast, show (l.length - 1) / 2 = t by omega]
      ring

/-- Witness for C4 at the even-length list `[1, 2, 3, 4]` and `p = 50`. -/
theorem C4_witness :
    percentile [(1 : ℚ), 2, 3, 4] 50 = specInterpolation [(1 : ℚ), 2, 3, 4] 50 ∧
    percentile [(1 : ℚ), 2, 3, 4] 50 = conventionalMedian [(1 : ℚ), 2, 3, 4] :=
  C4_percentile_interpolation_and_median [(1 : ℚ), 2, 3, 4] 50
    (by simp) (by norm_num) (by norm_num)

/-! ## Claim C8 -/

/-- When every weight is positive, the first loop succeeds with the plain
sum of the weights. -/
theorem sumWeights_ok :
    ∀ (l : List PortfolioAllocation), (∀ a ∈ l, ¬ a.weight ≤ 0) →
      sumWeights l = .ok ((l.map PortfolioAllocation.weight).sum) := by
  intro l
  induction l with
  | nil => intro _; simp [sumWeights]
  | cons a l ih =>
    intro h
    rw [sumWeights, if_neg (h a (List.mem_cons_self a l))]
    rw [ih (fun x hx => h x (List.mem_cons_of_mem a hx))]
    simp

/-- The first loop fails exactly when some weight is nonpositive. -/
theorem sumWeights_error_iff :
    ∀ (l : List PortfolioAllocation),
      (∃ e, sumWeights l = .error e) ↔ ∃ a ∈ l, a.weight ≤ 0 := by
  intro l
  induction l with
  | nil => simp [sumWeights]
  | cons a l ih =>
    constructor
    · intro ⟨e, he⟩
      rw [sumWeights] at he
      by_cases ha : a.weight ≤ 0
      · exact ⟨a, List.mem_cons_self a l, ha⟩
      · rw [if_neg ha] at he
        rcases hrest : sumWeights l with e' | s
        · obtain ⟨x, hx, hxw⟩ := ih.mp ⟨e', hrest⟩
          exact ⟨x, List.mem_cons_of_mem a hx, hxw⟩
        · rw [hrest] at he
          simp at he
    · intro ⟨x, hx, hxw⟩
      rcases List.mem_cons.mp hx with rfl | hx
      · exact ⟨.nonpositiveWeight x.symbol, by rw [sumWeights, if_pos hxw]⟩
      · by_cases ha : a.weight ≤ 0
        · exact ⟨.nonpositiveWeight a.symbol, by rw [sumWeights, if_pos ha]⟩
        · obtain ⟨e, he⟩ := ih.mpr ⟨x, hx, hxw⟩
          refine ⟨e, ?_⟩
          rw [sumWeights, if_neg ha, he]

/-- When every symbol is cached, the blend loop succeeds and the three
accumulated rates are the weighted sums of the cached per-symbol rates. -/
theorem blendLoop_ok (cache : String → Option IndexInfo) :
    ∀ (l : List PortfolioAllocation), (∀ a ∈ l, (cache a.symbol).isSome) →
      ∃ br, blendLoop cache l = .ok
        ((l.map (fun a => ((cache a.symbol).getD default).medianReturn * (a.weight / 100))).sum,
         (l.map (fun a =>
           ((cache a.symbol).getD default).pessimisticReturn * (a.weight / 100))).sum,
         (l.map (fun a =>
           ((cache a.symbol).getD default).optimisticReturn * (a.weight / 100))).sum,
         br) := by
  intro l
  induction l with
  | nil => exact fun _ => ⟨[], by simp [blendLoop]⟩
  | cons a l ih =>
    intro h
    obtain ⟨info, hinfo⟩ := Option.isSome_iff_exists.mp (h a (List.mem_cons_self a l))
    obtain ⟨br, hbr⟩ := ih (fun x hx => h x (List.mem_cons_of_mem a hx))
    refine ⟨{ symbol := a.symbol, name := info.name, weight := a.weight,
              medianReturn := round1 info.medianReturn } :: br, ?_⟩
    rw [blendLoop, hinfo, hbr]
    simp only [List.map_cons, List.sum_cons, hinfo, Option.getD_some]

/-- The blend loop fails exactly when some symbol is absent from the cache. -/
theorem blendLoop_error_iff (cache : String → Option IndexInfo) :
    ∀ (l : List PortfolioAllocation),
      (∃ e, blendLoop cache l = .error e) ↔ ∃ a ∈ l, cache a.symbol = none := by
  intro l
  induction l with
  | nil => simp [blendLoop]
  | cons a l ih =>
    constructor
    · intro ⟨e, he⟩
      rw [blendLoop] at he
      rcases hc : cache a.symbol with _ | info
      · exact ⟨a, List.mem_cons_self a l, hc⟩
      · rw [hc] at he
        rcases hrest : blendLoop cache l with e' | q
        · obtain ⟨x, hx, hxc⟩ := ih.mp ⟨e', hrest⟩
          exact ⟨x, List.mem_cons_of_mem a hx, hxc⟩
        · rw [hrest] at he
          obtain ⟨m, p, o, br⟩ := q
          simp at he
    · intro ⟨x, hx, hxc⟩
      rcases List.mem_cons.mp hx with rfl | hx
      · exact ⟨.unknownSymbol x.symbol, by rw [blendLoop, hxc]⟩
      · rcases hc : cache a.symbol with _ | info
        · exact ⟨.unknownSymbol a.symbol, by rw [blendLoop, hc]⟩
        · obtain ⟨e, he⟩ := ih.mpr ⟨x, hx, hxc⟩
          refine ⟨e, ?_⟩
          rw [blendLoop, hc, he]

/-- C8: `calculatePortfolioRates` fails exactly when the allocation list is
empty, or some weight is nonpositive, or the weight sum differs from 100 by
more than 0.01, or some symbol is absent from the cache (no partial blend);
on success the blended median/pessimistic/optimistic rates are the weighted
sums of the per-symbol cached rates with weights divided by 100.  In
particular a weight sum of 99.995 is accepted (|−0.005| ≤ 0.01) and 99.98 is
rejected (|−0.02| > 0.01) — see the witness. -/
theorem C8_portfolio_rates_spec (cache : String → Option IndexInfo)
    (allocations : List PortfolioAllocation) :
    ((∃ e, calculatePortfolioRates cache allocations = .error e) ↔
      (allocations = [] ∨ (∃ a ∈ allocations, a.weight ≤ 0) ∨
        0.01 < |(allocations.map PortfolioAllocation.weight).sum - 100| ∨
        ∃ a ∈ allocations, cache a.symbol = none)) ∧
    ∀ r, calculatePortfolioRates cache allocations = .ok r →
      r.rates.median = (allocations.map (fun a =>
          ((cache a.symbol).getD default).medianReturn * (a.weight / 100))).sum ∧
      r.rates.pessimistic = (allocations.map (fun a =>
          ((cache a.symbol).getD default).pessimisticReturn * (a.weight / 100))).sum ∧
      r.rates.optimistic = (allocations.map (fun a =>
          ((cache a.symbol).getD default).optimisticReturn * (a.weight / 100))).sum := by
  constructor
  · constructor
    · intro ⟨e, he⟩
      unfold calculatePortfolioRates at he
      by_cases hemp : allocations.isEmpty
      · exact Or.inl (List.isEmpty_iff.mp hemp)
      · rw [if_neg hemp] at he
        by_cases hw : ∃ a ∈ allocations, a.weight ≤ 0
        · exact Or.inr (Or.inl hw)
        · push_neg at hw
          rw [sumWeights_ok allocations (fun a ha => not_le.mpr (hw a ha))] at he
          simp only [] at he
          by_cases hs : 0.01 < |(allocations.map PortfolioAllocation.weight).sum - 100|
          · exact Or.inr (Or.inr (Or.inl hs))
          · rw [if_neg hs] at he
            rcases hb : blendLoop cache allocations with e' | q
            · exact Or.inr (Or.inr (Or.inr
                ((blendLoop_error_iff cache allocations).mp ⟨e', hb⟩)))
            · rw [hb] at he
              obtain ⟨m, p, o, br⟩ := q
              simp at he
    · intro h
      unfold calculatePortfolioRates
      by_cases hemp : allocations.isEmpty
      · rw [if_pos hemp]
        exact ⟨.emptyPortfolio, rfl⟩
      · rw [if_neg hemp]
        by_cases hw : ∃ a ∈ allocations, a.weight ≤ 0
        · obtain ⟨e, he⟩ := (sumWeights_error_iff allocations).mpr hw
          rw [he]
          exact ⟨e, rfl⟩
        · push_neg at hw
          rw [sumWeights_ok allocations (fun a ha => not_le.mpr (hw a ha))]
          simp only []
          rcases h with h | h | h | h
          · exact absurd (List.isEmpty_iff.mpr h) hemp
          · exact absurd h (by push_neg; intro a ha; exact hw a ha)
          · rw [if_pos h]
            exact ⟨.invalidWeightSum, rfl⟩
          · by_cases hs : 0.01 < |(allocations.map PortfolioAllocation.weight).sum - 100|
            · rw [if_pos hs]
              exact ⟨.invalidWeightSum, rfl⟩
            · rw [if_neg hs]
              obtain ⟨e, he⟩ := (blendLoop_error_iff cache allocations).mpr h
              rw [he]
              exact ⟨e, rfl⟩
  · intro r hr
    unfold calculatePortfolioRates at hr
    by_cases hemp : allocations.isEmpty
    · rw [if_pos hemp] at hr
      exact absurd hr (by simp)
    · rw [if_neg hemp] at hr
      rcases hsw : sumWeights allocations with e | s
      · rw [hsw] at hr
        exact absurd hr (by simp)
      · rw [hsw] at hr
        simp only [] at hr
        by_cases hs : 0.01 < |s - 100|
        · rw [if_pos hs] at hr
          exact absurd hr (by simp)
        · rw [if_neg hs] at hr
          have hknown : ∀ a ∈ allocations, (cache a.symbol).isSome := by
            intro a ha
            rcases hc : cache a.symbol with _ | info
            · obtain ⟨e, he⟩ := (blendLoop_error_iff cache allocations).mpr ⟨a, ha, hc⟩
              rw [he] at hr
              exact absurd hr (by simp)
            · simp
          obtain ⟨br, hbr⟩ := blendLoop_ok cache allocations hknown
          rw [hbr] at hr
          have hrr := Except.ok.inj hr
          rw [← hrr]
          exact ⟨rfl, rfl, rfl⟩

/-- Witness cache for C8: two known symbols. -/
noncomputable def c8Cache : String → Option IndexInfo := fun s =>
  if s = "SPY" then
    some { symbol := "SPY", name := "S&P 500", description := "",
           medianReturn := 8, pessimisticReturn := 3, optimisticReturn := 13,
           standardDeviation := 2, dataYears := 30, rollingPeriodYears := 20 }
  else if s = "QQQ" then
    some { symbol := "QQQ", name := "NASDAQ 100", description := "",
           medianReturn := 11, pessimisticReturn := 2, optimisticReturn := 18,
           standardDeviation := 4, dataYears := 25, rollingPeriodYears := 20 }
  else none

/-- Witness for C8: the weight sum 99.98 is rejected, the weight sum 99.995
is accepted, and the accepted blend carries the weighted rate sums. -/
theorem C8_witness :
    (∃ e, calculatePortfolioRates c8Cache
      [⟨"SPY", 60⟩, ⟨"QQQ", 39.98⟩] = .error e) ∧
    ∃ r, calculatePortfolioRates c8Cache [⟨"SPY", 60⟩, ⟨"QQQ", 39.995⟩] = .ok r ∧
      r.rates.median = ([⟨"SPY", 60⟩, (⟨"QQQ", 39.995⟩ : PortfolioAllocation)].map
        (fun a => ((c8Cache a.symbol).getD default).medianReturn * (a.weight / 100))).sum := by
  constructor
  · apply (C8_portfolio_rates_spec c8Cache [⟨"SPY", 60⟩, ⟨"QQQ", 39.98⟩]).1.mpr
    refine Or.inr (Or.inr (Or.inl ?_))
    simp only [List.map_cons, List.map_nil, List.sum_cons, List.sum_nil]
    rw [show (60 : ℝ) + (39.98 + 0) - 100 = -0.02 by norm_num, abs_of_neg (by norm_num)]
    norm_num
  · have hnoerr : ¬ ∃ e, calculatePortfolioRates c8Cache
        [⟨"SPY", 60⟩, ⟨"QQQ", 39.995⟩] = .error e := by
      rw [(C8_portfolio_rates_spec c8Cache [⟨"SPY", 60⟩, ⟨"QQQ", 39.995⟩]).1]
      push_neg
      refine ⟨by simp, ?_, ?_, ?_⟩
      · intro a ha
        rcases List.mem_cons.mp ha with rfl | ha
        · norm_num
        · rcases List.mem_cons.mp ha with rfl | ha
          · norm_num
          · simp at ha
      · simp only [List.map_cons, List.map_nil, List.sum_cons, List.sum_nil]
        rw [show (60 : ℝ) + (39.995 + 0) - 100 = -0.005 by norm_num,
          abs_of_neg (by norm_num)]
        norm_num
      · intro a ha
        rcases List.mem_cons.mp ha with rfl | ha
        · simp [c8Cache]
        · rcases List.mem_cons.mp ha with rfl | ha
          · simp [c8Cache]
          · simp at ha
    rcases hres : calculatePortfolioRates c8Cache [⟨"SPY", 60⟩, ⟨"QQQ", 39.995⟩] with e | r
    · exact absurd ⟨e, hres⟩ hnoerr
    · exact ⟨r, rfl,
        ((C8_portfolio_rates_spec c8Cache [⟨"SPY", 60⟩, ⟨"QQQ", 39.995⟩]).2 r hres).1⟩

/-! ## Claim C3 -/

theorem getD_replicate_of_lt {α : Type*} [Inhabited α] {n i : ℕ} {a d : α} (h : i < n) :
    (List.replicate n a).getD i d = a := by
  rw [List.getD_eq_getElem _ _ (by simpa using h), List.getElem_replicate]

/-- The annualized return of a flat price series is zero. -/
theorem annualizedReturnOf_one_one (rollingYears : ℕ) :
    annualizedReturnOf 1 1 rollingYears = 0 := by
  unfold annualizedReturnOf
  norm_num [Real.one_rpow]

/-- When every window survives the positivity and range filters, the rolling
loop produces one sample per iteration: exactly `L − W` of them. -/
theorem rollingSamples_length_of_valid (prices : List ℝ) (W rollingYears : ℕ)
    (hpos : ∀ i < prices.length, 0 < prices.getD i 0)
    (hrange : ∀ k < prices.length - W,
      -50 < annualizedReturnOf (prices.getD k 0) (prices.getD (k + W) 0) rollingYears ∧
      annualizedReturnOf (prices.getD k 0) (prices.getD (k + W) 0) rollingYears < 100) :
    (rollingSamples prices W rollingYears).length = prices.length - W := by
  unfold rollingSamples
  refine (filterMap_length_of_forall_some ?_).trans (List.length_range _)
  intro k hk
  rw [List.mem_range] at hk
  have h1 := hpos k (by omega)
  have h2 := hpos (k + W) (by omega)
  simp only []
  rw [if_neg (by push_neg; exact ⟨by linarith, by linarith⟩), if_pos (hrange k hk)]
  rfl

/-- All adjusted closes positive, as a statement about the mapped price
list. -/
theorem adjClose_getD_pos (data : HistoricalData)
    (hpos : ∀ pt ∈ data.dataPoints, 0 < pt.adjClose) :
    ∀ i < (data.dataPoints.map PricePoint.adjClose).length,
      0 < (data.dataPoints.map PricePoint.adjClose).getD i 0 := by
  intro i hi
  rw [List.getD_eq_getElem _ _ hi, List.getElem_map]
  exact hpos _ (List.getElem_mem _)

/-- Core count/error dichotomy of `CalculateStats` on clean input. -/
theorem calculateStats_count_spec (data : HistoricalData) (rollingYears : ℕ)
    (hpos : ∀ pt ∈ data.dataPoints, 0 < pt.adjClose)
    (hrange : ∀ k < data.dataPoints.length - rollingYears * PointsPerYear data.interval,
      -50 < annualizedReturnOf
          ((data.dataPoints.map PricePoint.adjClose).getD k 0)
          ((data.dataPoints.map PricePoint.adjClose).getD
            (k + rollingYears * PointsPerYear data.interval) 0) rollingYears ∧
      annualizedReturnOf
          ((data.dataPoints.map PricePoint.adjClose).getD k 0)
          ((data.dataPoints.map PricePoint.adjClose).getD
            (k + rollingYears * PointsPerYear data.interval) 0) rollingYears < 100) :
    (rollingYears * PointsPerYear data.interval < data.dataPoints.length →
      ∃ stats, CalculateStats data rollingYears = .ok stats ∧
        stats.rollingReturns.length =
          data.dataPoints.length - rollingYears * PointsPerYear data.interval) ∧
    (data.dataPoints.length < rollingYears * PointsPerYear data.interval →
      CalculateStats data rollingYears = .error
        (.insufficientData (PointsPerYear data.interval * rollingYears)
          data.dataPoints.length)) := by
  have hcount : (rollingSamples (data.dataPoints.map PricePoint.adjClose)
      (rollingYears * PointsPerYear data.interval) rollingYears).length =
      data.dataPoints.length - rollingYears * PointsPerYear data.interval := by
    rw [rollingSamples_length_of_valid _ _ _ (adjClose_getD_pos data hpos)
      (by rw [List.length_map]; exact hrange), List.length_map]
  constructor
  · intro hlt
    unfold CalculateStats
    rw [if_neg (by rw [Nat.mul_comm]; omega)]
    simp only []
    rw [if_neg (by
      intro hnil
      rw [hnil] at hcount
      simp only [List.length_nil] at hcount
      omega)]
    exact ⟨_, rfl, hcount⟩
  · intro hlt
    unfold CalculateStats
    rw [if_pos (by rw [Nat.mul_comm]; omega)]

/-- C3: on a series whose adjusted closes are all positive and whose computed
annualized returns all lie strictly inside (−50, 100), with
`W = rollingYears × pointsPerYear`: if `L > W` then `CalculateStats` succeeds
with exactly `L − W` rolling samples, and if `L < W` it fails with the
insufficient-data error naming the required and actual counts. -/
theorem C3_rolling_sample_count (data : HistoricalData) (rollingYears : ℕ)
    (hpos : ∀ pt ∈ data.dataPoints, 0 < pt.adjClose)
    (hrange : ∀ k < data.dataPoints.length - rollingYears * PointsPerYear data.interval,
      -50 < annualizedReturnOf
          ((data.dataPoints.map PricePoint.adjClose).getD k 0)
          ((data.dataPoints.map PricePoint.adjClose).getD
            (k + rollingYears * PointsPerYear data.interval) 0) rollingYears ∧
      annualizedReturnOf
          ((data.dataPoints.map PricePoint.adjClose).getD k 0)
          ((data.dataPoints.map PricePoint.adjClose).getD
            (k + rollingYears * PointsPerYear data.interval) 0) rollingYears < 100) :
    (rollingYears * PointsPerYear data.interval < data.dataPoints.length →
      ∃ stats, CalculateStats data rollingYears = .ok stats ∧
        stats.rollingReturns.length =
          data.dataPoints.length - rollingYears * PointsPerYear data.interval) ∧
    (data.dataPoints.length < rollingYears * PointsPerYear data.interval →
      CalculateStats data rollingYears = .error
        (.insufficientData (PointsPerYear data.interval * rollingYears)
          data.dataPoints.length)) :=
  calculateStats_count_spec data rollingYears hpos hrange

/-- Witness series for C3: 13 flat monthly points (enough for a 1-year
window) and 11 flat monthly points (one short). -/
def c3Data13 : HistoricalData :=
  { symbol := "TEST", interval := "1mo", dataPoints := List.replicate 13 ⟨1⟩ }

def c3Data11 : HistoricalData :=
  { symbol := "TEST", interval := "1mo", dataPoints := List.replicate 11 ⟨1⟩ }

theorem c3_hpos13 : ∀ pt ∈ c3Data13.dataPoints, 0 < pt.adjClose := by
  intro pt hpt
  rw [(List.mem_replicate.mp hpt).2]
  norm_num

theorem c3_hrange13 :
    ∀ k < c3Data13.dataPoints.length - 1 * PointsPerYear c3Data13.interval,
      -50 < annualizedReturnOf
          ((c3Data13.dataPoints.map PricePoint.adjClose).getD k 0)
          ((c3Data13.dataPoints.map PricePoint.adjClose).getD
            (k + 1 * PointsPerYear c3Data13.interval) 0) 1 ∧
      annualizedReturnOf
          ((c3Data13.dataPoints.map PricePoint.adjClose).getD k 0)
          ((c3Data13.dataPoints.map PricePoint.adjClose).getD
            (k + 1 * PointsPerYear c3Data13.interval) 0) 1 < 100 := by
  intro k hk
  have hppy : PointsPerYear c3Data13.interval = 12 := rfl
  rw [hppy] at hk ⊢
  have hlen : c3Data13.dataPoints.length = 13 := by simp [c3Data13]
  rw [hlen] at hk
  simp only [c3Data13, List.map_replicate]
  rw [getD_replicate_of_lt (by omega), getD_replicate_of_lt (by omega)]
  rw [annualizedReturnOf_one_one]
  norm_num

/-- Witness for C3: the 13-point series yields exactly one rolling sample;
the 11-point series fails with the shortfall-naming error. -/
theorem C3_witness :
    (∃ stats, CalculateStats c3Data13 1 = .ok stats ∧ stats.rollingReturns.length = 1) ∧
    CalculateStats c3Data11 1 = .error (.insufficientData 12 11) := by
  constructor
  · have h := (C3_rolling_sample_count c3Data13 1 c3_hpos13 c3_hrange13).1
      (by simp [c3Data13, PointsPerYear])
    simpa [c3Data13, PointsPerYear] using h
  · have h := (C3_rolling_sample_count c3Data11 1
      (by intro pt hpt; rw [(List.mem_replicate.mp hpt).2]; norm_num)
      (by intro k hk; simp [c3Data11, PointsPerYear] at hk)).2
      (by simp [c3Data11, PointsPerYear])
    simpa [c3Data11, PointsPerYear] using h

/-! ## Claim C5 -/

section SortedPercentile

variable {α : Type*} [LinearOrderedField α] [FloorRing α]

theorem sorted_getD_mono (l : List α) (hs : List.Sorted (· ≤ ·) l) {i j : ℕ}
    (hij : i ≤ j) (hj : j < l.length) : l.getD i 0 ≤ l.getD j 0 := by
  rw [List.getD_eq_getElem _ _ (by omega), List.getD_eq_getElem _ _ hj]
  rcases eq_or_lt_of_le hij with rfl | hlt
  · exact le_refl _
  · have h := hs.rel_get_of_lt
      (show (⟨i, by omega⟩ : Fin l.length) < ⟨j, hj⟩ from Fin.mk_lt_mk.mpr hlt)
    simpa [List.get_eq_getElem] using h

/-- The linear-interpolation value is monotone in the fractional index over a
sorted list. -/
theorem interp_mono (l : List α) (hs : List.Sorted (· ≤ ·) l) (x y : α)
    (hx0 : 0 ≤ x) (hxy : x ≤ y) (hy1 : y ≤ (l.length : α) - 1) :
    l.getD ⌊x⌋.toNat 0 * (1 - (x - (⌊x⌋ : α))) + l.getD ⌈x⌉.toNat 0 * (x - (⌊x⌋ : α)) ≤
    l.getD ⌊y⌋.toNat 0 * (1 - (y - (⌊y⌋ : α))) + l.getD ⌈y⌉.toNat 0 * (y - (⌊y⌋ : α)) := by
  have hy0 : 0 ≤ y := hx0.trans hxy
  have hlen1 : 1 ≤ l.length := by
    by_contra hcon
    have h0 : l.length = 0 := by omega
    rw [h0] at hy1
    norm_num at hy1
    linarith
  have hfx0 : 0 ≤ ⌊x⌋ := Int.floor_nonneg.mpr hx0
  have hfy0 : 0 ≤ ⌊y⌋ := Int.floor_nonneg.mpr hy0
  have hcx0 : 0 ≤ ⌈x⌉ := hfx0.trans (Int.floor_le_ceil x)
  have hcy1 : ⌈y⌉ ≤ (l.length : ℤ) - 1 := Int.ceil_le.mpr (by push_cast; linarith)
  have hcx1 : ⌈x⌉ ≤ (l.length : ℤ) - 1 := (Int.ceil_le_ceil hxy).trans hcy1
  have hfy1 : ⌊y⌋ ≤ (l.length : ℤ) - 1 := (Int.floor_le_ceil y).trans hcy1
  have hfx1 : ⌊x⌋ ≤ (l.length : ℤ) - 1 := (Int.floor_le_floor hxy).trans hfy1
  have hwx0 : 0 ≤ x - (⌊x⌋ : α) := sub_nonneg.mpr (Int.floor_le x)
  have hwx1 : x - (⌊x⌋ : α) ≤ 1 := by
    have := Int.lt_floor_add_one x
    push_cast at this
    linarith
  have hwy0 : 0 ≤ y - (⌊y⌋ : α) := sub_nonneg.mpr (Int.floor_le y)
  have hwy1 : y - (⌊y⌋ : α) ≤ 1 := by
    have := Int.lt_floor_add_one y
    push_cast at this
    linarith
  by_cases hcb : ⌈x⌉ ≤ ⌊y⌋
  · have hax : l.getD ⌊x⌋.toNat 0 ≤ l.getD ⌈x⌉.toNat 0 :=
      sorted_getD_mono l hs (Int.toNat_le_toNat (Int.floor_le_ceil x)) (by omega)
    have hmid : l.getD ⌈x⌉.toNat 0 ≤ l.getD ⌊y⌋.toNat 0 :=
      sorted_getD_mono l hs (Int.toNat_le_toNat hcb) (by omega)
    have hby : l.getD ⌊y⌋.toNat 0 ≤ l.getD ⌈y⌉.toNat 0 :=
      sorted_getD_mono l hs (Int.toNat_le_toNat (Int.floor_le_ceil y)) (by omega)
    nlinarith [hax, hmid, hby, hwx0, hwx1, hwy0, hwy1]
  · push_neg at hcb
    have hfxy : ⌊x⌋ ≤ ⌊y⌋ := Int.floor_le_floor hxy
    have h1 : ⌈x⌉ ≤ ⌊x⌋ + 1 := Int.ceil_le_floor_add_one x
    have hfeq : ⌊y⌋ = ⌊x⌋ := by omega
    by_cases hyint : ⌈y⌉ = ⌊y⌋
    · have hyeq : ((⌊y⌋ : ℤ) : α) = y :=
        le_antisymm (Int.floor_le y) (by rw [← hyint]; exact Int.le_ceil y)
      have hxeqy : x = y := by
        refine le_antisymm hxy ?_
        rw [← hyeq, hfeq]
        push_cast
        exact Int.floor_le x
      rw [hxeqy]
    · have hcy : ⌈y⌉ = ⌊y⌋ + 1 := by
        have ha := Int.ceil_le_floor_add_one y
        have hb := Int.floor_le_ceil y
        omega
      have hfloorceil : ⌊x⌋ ≤ ⌈x⌉ := Int.floor_le_ceil x
      have hcx : ⌈x⌉ = ⌊x⌋ + 1 := by omega
      rw [hcy, hcx, hfeq]
      have hAB : l.getD ⌊x⌋.toNat 0 ≤ l.getD (⌊x⌋ + 1).toNat 0 :=
        sorted_getD_mono l hs (by omega) (by omega)
      nlinarith [hAB, hxy]

/-- `percentile` is monotone in `p` over a sorted list. -/
theorem percentile_mono_in_p (l : List α) (hs : List.Sorted (· ≤ ·) l) (hne : l ≠ [])
    {p q : α} (hp0 : 0 ≤ p) (hpq : p ≤ q) (hq1 : q ≤ 100) :
    percentile l p ≤ percentile l q := by
  have hn : 1 ≤ l.length := List.length_pos.mpr hne
  have hn1 : (0 : α) ≤ (l.length : α) - 1 := by
    have h1 : (1 : α) ≤ (l.length : α) := by exact_mod_cast hn
    linarith
  rw [percentile_eq_interp l p hne hp0 (hpq.trans hq1),
    percentile_eq_interp l q hne (hp0.trans hpq) hq1]
  apply interp_mono l hs
  · exact mul_nonneg (div_nonneg hp0 (by norm_num)) hn1
  · exact mul_le_mul_of_nonneg_right ((div_le_div_right (by norm_num)).mpr hpq) hn1
  · exact mul_le_of_le_one_left hn1 ((div_le_one (by norm_num)).mpr hq1)

end SortedPercentile

/-- C5: every successful `CalculateStats` result has
`Percentile5Return ≤ AnnualizedReturn (median) ≤ Percentile95Return`. -/
theorem C5_percentiles_monotone (data : HistoricalData) (rollingYears : ℕ)
    (stats : IndexStats) (h : CalculateStats data rollingYears = .ok stats) :
    stats.percentile5Return ≤ stats.annualizedReturn ∧
    stats.annualizedReturn ≤ stats.percentile95Return := by
  unfold CalculateStats at h
  by_cases h1 : data.dataPoints.length < PointsPerYear data.interval * rollingYears
  · rw [if_pos h1] at h
    exact absurd h (by simp)
  · rw [if_neg h1] at h
    simp only [] at h
    by_cases h2 : rollingSamples (data.dataPoints.map PricePoint.adjClose)
        (rollingYears * PointsPerYear data.interval) rollingYears = []
    · rw [if_pos h2] at h
      exact absurd h (by simp)
    · rw [if_neg h2] at h
      have hstats := Except.ok.inj h
      have hsorted : List.Sorted (· ≤ ·)
          ((rollingSamples (data.dataPoints.map PricePoint.adjClose)
            (rollingYears * PointsPerYear data.interval)
            rollingYears).insertionSort (· ≤ ·)) :=
        List.sorted_insertionSort _ _
      have hne : (rollingSamples (data.dataPoints.map PricePoint.adjClose)
          (rollingYears * PointsPerYear data.interval)
          rollingYears).insertionSort (· ≤ ·) ≠ [] := by
        intro hnil
        have hlen := (List.perm_insertionSort (· ≤ ·)
          (rollingSamples (data.dataPoints.map PricePoint.adjClose)
            (rollingYears * PointsPerYear data.interval) rollingYears)).length_eq
        rw [hnil] at hlen
        simp only [List.length_nil] at hlen
        exact h2 (List.eq_nil_of_length_eq_zero hlen.symm)
      rw [← hstats]
      exact ⟨percentile_mono_in_p _ hsorted hne (by norm_num) (by norm_num) (by norm_num),
        percentile_mono_in_p _ hsorted hne (by norm_num) (by norm_num) (by norm_num)⟩

/-- Witness for C5: a concrete successful `CalculateStats` run on the
13-point flat series, with the percentile ordering instantiated there. -/
theorem C5_witness :
    ∃ stats, CalculateStats c3Data13 1 = .ok stats ∧
      stats.percentile5Return ≤ stats.annualizedReturn ∧
      stats.annualizedReturn ≤ stats.percentile95Return := by
  obtain ⟨stats, hok, _⟩ := (calculateStats_count_spec c3Data13 1 c3_hpos13 c3_hrange13).1
    (by simp [c3Data13, PointsPerYear])
  exact ⟨stats, hok, C5_percentiles_monotone c3Data13 1 stats hok⟩

/-! ## Claim C6 -/

/-- Unfolding equation for one simulation step. -/
theorem simLoop_succ (k : ℕ) (y m : ℤ) (balance contrib totalContrib mrr mcg : ℝ) :
    simLoop (k + 1) y m balance contrib totalContrib mrr mcg =
      { year := (advanceMonth y m).1, month := (advanceMonth y m).2,
        monthlyContribution := round2 contrib,
        totalContributed := round2 (totalContrib + contrib),
        portfolioValue := round2 (balance * (1 + mrr) + contrib),
        pessimisticValue := none, optimisticValue := none } ::
        simLoop k (advanceMonth y m).1 (advanceMonth y m).2
          (balance * (1 + mrr) + contrib) (contrib * (1 + mcg))
          (totalContrib + contrib) mrr mcg := rfl

/-- Unfolding equation for `simulateMonthly`. -/
theorem simulateMonthly_eq_simLoop (initial monthlyBase : ℝ) (startYear startMonth : ℤ)
    (totalMonths : ℕ) (annualRate contributionGrowth : ℝ) :
    simulateMonthly initial monthlyBase startYear startMonth totalMonths annualRate
      contributionGrowth =
    simLoop totalMonths startYear startMonth initial monthlyBase initial
      ((1 + annualRate / 100) ^ ((1 : ℝ) / 12) - 1)
      ((1 + contributionGrowth / 100) ^ ((1 : ℝ) / 12) - 1) := rfl

/-- Unfolding equation for the merged projection list of `simulateWithRange`. -/
theorem simulateWithRange_fst (initial monthlyBase : ℝ) (startYear startMonth : ℤ)
    (totalMonths : ℕ) (rates : IndexReturnRates) (contributionGrowth : ℝ)
    (endYear endMonth : ℤ) :
    (simulateWithRange initial monthlyBase startYear startMonth totalMonths rates
      contributionGrowth endYear endMonth).1 =
    (List.range (simulateMonthly initial monthlyBase startYear startMonth totalMonths
      rates.median contributionGrowth).length).map (fun i =>
      { year := ((simulateMonthly initial monthlyBase startYear startMonth totalMonths
          rates.median contributionGrowth).getD i defaultProjection).year,
        month := ((simulateMonthly initial monthlyBase startYear startMonth totalMonths
          rates.median contributionGrowth).getD i defaultProjection).month,
        monthlyContribution := ((simulateMonthly initial monthlyBase startYear startMonth
          totalMonths rates.median contributionGrowth).getD i
            defaultProjection).monthlyContribution,
        totalContributed := ((simulateMonthly initial monthlyBase startYear startMonth
          totalMonths rates.median contributionGrowth).getD i
            defaultProjection).totalContributed,
        portfolioValue := ((simulateMonthly initial monthlyBase startYear startMonth
          totalMonths rates.median contributionGrowth).getD i
            defaultProjection).portfolioValue,
        pessimisticValue := some (((simulateMonthly initial monthlyBase startYear startMonth
          totalMonths rates.pessimistic contributionGrowth).getD i
            defaultProjection).portfolioValue),
        optimisticValue := some (((simulateMonthly initial monthlyBase startYear startMonth
          totalMonths rates.optimistic contributionGrowth).getD i
            defaultProjection).portfolioValue) }) := rfl

/-- Pointwise comparison of two simulation runs: with the same nonnegative
start data and a pointwise larger (nonnegative) growth factor, every recorded
portfolio value is pointwise larger. -/
theorem simLoop_value_le :
    ∀ (n : ℕ) (y m : ℤ) (b1 b2 c tc r1 r2 g : ℝ) (i : ℕ),
      0 ≤ b1 → b1 ≤ b2 → 0 ≤ c → 0 ≤ 1 + r1 → r1 ≤ r2 → 0 ≤ 1 + g →
      ((simLoop n y m b1 c tc r1 g).getD i defaultProjection).portfolioValue ≤
      ((simLoop n y m b2 c tc r2 g).getD i defaultProjection).portfolioValue := by
  intro n
  induction n with
  | zero =>
    intro y m b1 b2 c tc r1 r2 g i _ _ _ _ _ _
    exact le_refl _
  | succ k ih =>
    intro y m b1 b2 c tc r1 r2 g i hb1 hb12 hc hr1 hr12 hg
    have hb2 : 0 ≤ b2 := hb1.trans hb12
    have hstep : b1 * (1 + r1) + c ≤ b2 * (1 + r2) + c := by
      have h1 : b1 * (1 + r1) ≤ b2 * (1 + r1) := mul_le_mul_of_nonneg_right hb12 hr1
      have h2 : b2 * (1 + r1) ≤ b2 * (1 + r2) := mul_le_mul_of_nonneg_left (by linarith) hb2
      linarith
    cases i with
    | zero =>
      simp only [simLoop_succ, List.getD_cons_zero]
      exact round2_mono hstep
    | succ j =>
      simp only [simLoop_succ, List.getD_cons_succ]
      exact ih _ _ _ _ _ _ _ _ _ j
        (add_nonneg (mul_nonneg hb1 hr1) hc) hstep (mul_nonneg hc hg) hr1 hr12 hg

/-- The monthly return factor `(1 + rate/100)^(1/12)` is nonnegative and
monotone for rates ≥ −100. -/
theorem monthlyFactor_nonneg {rate : ℝ} (h : -100 ≤ rate) :
    0 ≤ 1 + ((1 + rate / 100) ^ ((1 : ℝ) / 12) - 1) := by
  have : (1 : ℝ) + ((1 + rate / 100) ^ ((1 : ℝ) / 12) - 1) =
      (1 + rate / 100) ^ ((1 : ℝ) / 12) := by ring
  rw [this]
  exact Real.rpow_nonneg (by linarith) _

theorem monthlyRate_mono {r1 r2 : ℝ} (h1 : -100 ≤ r1) (h12 : r1 ≤ r2) :
    (1 + r1 / 100) ^ ((1 : ℝ) / 12) - 1 ≤ (1 + r2 / 100) ^ ((1 : ℝ) / 12) - 1 :=
  sub_le_sub_right
    (Real.rpow_le_rpow (by linarith) (by linarith) (by norm_num)) 1

/-- C6 (amended): with `initial ≥ 0`, `monthlyBase ≥ 0`, `totalMonths ≥ 1`,
`contributionGrowth ≥ 0`, and rates `pessimistic ≤ median ≤ optimistic` that
additionally satisfy `pessimistic ≥ −100` (so every monthly growth factor is
nonnegative; rates the system produces always satisfy this since per-symbol
returns are filtered into (−50, 100)), the merged projection list satisfies
`pessimisticValue ≤ portfolioValue ≤ optimisticValue` at every index. -/
theorem C6_range_ordering (initial monthlyBase : ℝ) (startYear startMonth : ℤ)
    (totalMonths : ℕ) (rates : IndexReturnRates) (contributionGrowth : ℝ)
    (endYear endMonth : ℤ) (hi : 0 ≤ initial) (hb : 0 ≤ monthlyBase)
    (htm : 1 ≤ totalMonths) (hg : 0 ≤ contributionGrowth)
    (hlb : -100 ≤ rates.pessimistic) (hpm : rates.pessimistic ≤ rates.median)
    (hmo : rates.median ≤ rates.optimistic) :
    ∀ e ∈ (simulateWithRange initial monthlyBase startYear startMonth totalMonths rates
      contributionGrowth endYear endMonth).1,
      ∃ pv ov, e.pessimisticValue = some pv ∧ e.optimisticValue = some ov ∧
        pv ≤ e.portfolioValue ∧ e.portfolioValue ≤ ov := by
  intro e he
  rw [simulateWithRange_fst] at he
  obtain ⟨i, hir, rfl⟩ := List.mem_map.mp he
  refine ⟨_, _, rfl, rfl, ?_, ?_⟩
  · simp only [simulateMonthly_eq_simLoop]
    exact simLoop_value_le _ _ _ _ _ _ _ _ _ _ i hi (le_refl _) hb
      (monthlyFactor_nonneg hlb) (monthlyRate_mono hlb hpm)
      (monthlyFactor_nonneg (by linarith : (-100 : ℝ) ≤ contributionGrowth))
  · simp only [simulateMonthly_eq_simLoop]
    exact simLoop_value_le _ _ _ _ _ _ _ _ _ _ i hi (le_refl _) hb
      (monthlyFactor_nonneg (by linarith : (-100 : ℝ) ≤ rates.median))
      (monthlyRate_mono (by linarith) hmo)
      (monthlyFactor_nonneg (by linarith : (-100 : ℝ) ≤ contributionGrowth))

/-- Witness for C6 (amended) with the spec's example rates 5% / 8% / 11%
over 24 months, instantiated at the first projected month. -/
theorem C6_witness :
    ∃ pv ov,
      ((simulateWithRange 1000 500 2020 1 24 ⟨8, 5, 11⟩ 0 2022 1).1.getD 0
        defaultProjection).pessimisticValue = some pv ∧
      ((simulateWithRange 1000 500 2020 1 24 ⟨8, 5, 11⟩ 0 2022 1).1.getD 0
        defaultProjection).optimisticValue = some ov ∧
      pv ≤ ((simulateWithRange 1000 500 2020 1 24 ⟨8, 5, 11⟩ 0 2022 1).1.getD 0
        defaultProjection).portfolioValue ∧
      ((simulateWithRange 1000 500 2020 1 24 ⟨8, 5, 11⟩ 0 2022 1).1.getD 0
        defaultProjection).portfolioValue ≤ ov := by
  have hlen : (simulateWithRange 1000 500 2020 1 24 ⟨8, 5, 11⟩ 0 2022 1).1.length = 24 := by
    rw [simulateWithRange_fst, List.length_map, List.length_range, simulateMonthly_length]
  have hmem : (simulateWithRange 1000 500 2020 1 24 ⟨8, 5, 11⟩ 0 2022 1).1.getD 0
      defaultProjection ∈ (simulateWithRange 1000 500 2020 1 24 ⟨8, 5, 11⟩ 0 2022 1).1 := by
    rw [List.getD_eq_getElem _ _ (by omega)]
    exact List.getElem_mem _
  exact C6_range_ordering 1000 500 2020 1 24 ⟨8, 5, 11⟩ 0 2022 1 (by norm_num) (by norm_num)
    (by norm_num) (by norm_num) (by norm_num) (by norm_num) (by norm_num) _ hmem

/-- The idealised `math.Pow((-2), 1/12)` (a real power of a negative base)
is at least `1/2`: it equals `exp(log 2 / 12) · cos(π/12)` with
`exp(log 2 / 12) ≥ 1` and `cos(π/12) ≥ cos(π/3) = 1/2`.  (Go's `math.Pow`
returns NaN here, on which the claimed comparisons fail as well.) -/
theorem neg_two_rpow_twelfth_ge_half : (1 : ℝ) / 2 ≤ (-2 : ℝ) ^ ((1 : ℝ) / 12) := by
  rw [Real.rpow_def_of_neg (by norm_num : (-2 : ℝ) < 0)]
  have hlog : Real.log (-2) = Real.log 2 := by
    rw [show (-2 : ℝ) = -(2 : ℝ) by norm_num, Real.log_neg_eq_log]
  rw [hlog]
  have hexp : 1 ≤ Real.exp (Real.log 2 * (1 / 12)) :=
    Real.one_le_exp (mul_nonneg (Real.log_nonneg (by norm_num)) (by norm_num))
  have hpi := Real.pi_pos
  have hcos : (1 : ℝ) / 2 ≤ Real.cos (1 / 12 * Real.pi) := by
    have h1 : Real.cos (Real.pi / 3) ≤ Real.cos (1 / 12 * Real.pi) :=
      Real.cos_le_cos_of_nonneg_of_le_pi (by linarith) (by linarith) (by linarith)
    rwa [Real.cos_pi_div_three] at h1
  have hcosnn : (0 : ℝ) ≤ Real.cos (1 / 12 * Real.pi) := by linarith
  have hmul := mul_le_mul_of_nonneg_right hexp hcosnn
  rw [one_mul] at hmul
  linarith

/-- C6 counterexample: the claim quantifies over all rates with
`pessimistic ≤ median ≤ optimistic`; at rates `(-300, -100, 0)` the median
monthly factor is `0^(1/12) = 0` (the balance collapses to 0) while the
pessimistic factor `(-2)^(1/12)` is ≥ 1/2, so at month one the pessimistic
value exceeds the median value. -/
theorem C6_counterexample :
    ¬ (∀ e ∈ (simulateWithRange 100 0 2020 1 1 ⟨-100, -300, 0⟩ 0 2021 2).1,
        ∃ pv ov, e.pessimisticValue = some pv ∧ e.optimisticValue = some ov ∧
          pv ≤ e.portfolioValue ∧ e.portfolioValue ≤ ov) := by
  intro h
  have hlen : (simulateWithRange 100 0 2020 1 1 ⟨-100, -300, 0⟩ 0 2021 2).1.length = 1 := by
    rw [simulateWithRange_fst, List.length_map, List.length_range, simulateMonthly_length]
  have hmem : (simulateWithRange 100 0 2020 1 1 ⟨-100, -300, 0⟩ 0 2021 2).1.getD 0
      defaultProjection ∈ (simulateWithRange 100 0 2020 1 1 ⟨-100, -300, 0⟩ 0 2021 2).1 := by
    rw [List.getD_eq_getElem _ _ (by omega)]
    exact List.getElem_mem _
  obtain ⟨pv, ov, hpv, _, hle1, _⟩ := h _ hmem
  have hget : (simulateWithRange 100 0 2020 1 1 ⟨-100, -300, 0⟩ 0 2021 2).1.getD 0
      defaultProjection =
      { year := ((simulateMonthly 100 0 2020 1 1 (-100) 0).getD 0 defaultProjection).year,
        month := ((simulateMonthly 100 0 2020 1 1 (-100) 0).getD 0 defaultProjection).month,
        monthlyContribution := ((simulateMonthly 100 0 2020 1 1 (-100) 0).getD 0
          defaultProjection).monthlyContribution,
        totalContributed := ((simulateMonthly 100 0 2020 1 1 (-100) 0).getD 0
          defaultProjection).totalContributed,
        portfolioValue := ((simulateMonthly 100 0 2020 1 1 (-100) 0).getD 0
          defaultProjection).portfolioValue,
        pessimisticValue := some (((simulateMonthly 100 0 2020 1 1 (-300) 0).getD 0
          defaultProjection).portfolioValue),
        optimisticValue := some (((simulateMonthly 100 0 2020 1 1 0 0).getD 0
          defaultProjection).portfolioValue) } := by
    rw [simulateWithRange_fst]
    rw [List.getD_eq_getElem _ _ (by
      rw [List.length_map, List.length_range, simulateMonthly_length]; omega)]
    rw [List.getElem_map, List.getElem_range]
  have hmedian : ((simulateMonthly 100 0 2020 1 1 (-100) 0).getD 0
      defaultProjection).portfolioValue = 0 := by
    rw [simulateMonthly_eq_simLoop]
    rw [show ((1 : ℝ) + -100 / 100) ^ ((1 : ℝ) / 12) - 1 = -1 by
      rw [show (1 : ℝ) + -100 / 100 = 0 by norm_num,
        Real.zero_rpow (by norm_num : ((1 : ℝ) / 12) ≠ 0)]
      norm_num]
    rw [simLoop_succ]
    simp only [List.getD_cons_zero]
    rw [show (100 : ℝ) * (1 + -1) + 0 = 0 by norm_num, round2_zero]
  have hpess : (50 : ℝ) ≤ ((simulateMonthly 100 0 2020 1 1 (-300) 0).getD 0
      defaultProjection).portfolioValue := by
    rw [simulateMonthly_eq_simLoop, simLoop_succ]
    simp only [List.getD_cons_zero]
    have harg : (50 : ℝ) ≤ 100 * (1 + ((1 + (-300 : ℝ) / 100) ^ ((1 : ℝ) / 12) - 1)) + 0 := by
      have hbase : (1 : ℝ) + (-300 : ℝ) / 100 = -2 := by norm_num
      rw [hbase]
      have := neg_two_rpow_twelfth_ge_half
      nlinarith
    have hr50 : round2 (50 : ℝ) = 50 := by
      rw [show (50 : ℝ) = ((50 : ℤ) : ℝ) by norm_num, round2_intCast]
    calc (50 : ℝ) = round2 (50 : ℝ) := hr50.symm
      _ ≤ round2 (100 * (1 + ((1 + (-300 : ℝ) / 100) ^ ((1 : ℝ) / 12) - 1)) + 0) :=
        round2_mono harg
  rw [hget] at hpv hle1
  simp only [Option.some.injEq] at hpv
  rw [← hpv] at hle1
  rw [hmedian] at hle1
  linarith

/-! ## Claim C9 -/

theorem filterMap_const_some {α β : Type*} (b : β) :
    ∀ (l : List α) (f : α → Option β), (∀ x ∈ l, f x = some b) →
      l.filterMap f = List.replicate l.length b := by
  intro l
  induction l with
  | nil => intro f _; rfl
  | cons a l ih =>
    intro f h
    rw [List.filterMap_cons, h a (List.mem_cons_self a l)]
    rw [List.length_cons, List.replicate_succ]
    rw [ih f (fun x hx => h x (List.mem_cons_of_mem a hx))]

/-- On a flat price series of 1s, every rolling window survives the filters
with annualized return 0. -/
theorem rollingSamples_replicate_one (L W rollingYears : ℕ) :
    rollingSamples (List.replicate L (1 : ℝ)) W rollingYears =
      List.replicate (L - W) 0 := by
  unfold rollingSamples
  rw [List.length_replicate]
  rw [filterMap_const_some 0 _ _ ?_, List.length_range]
  intro k hk
  rw [List.mem_range] at hk
  simp only []
  rw [getD_replicate_of_lt (by omega), getD_replicate_of_lt (by omega)]
  rw [if_neg (by norm_num)]
  simp only [annualizedReturnOf_one_one]
  rw [if_pos (by norm_num)]

/-- A 240-point flat monthly series: exactly the 20-year window length, so
the 20-year rolling loop runs zero iterations. -/
def c9Data240 : HistoricalData :=
  { symbol := "SPY", interval := "1mo", dataPoints := List.replicate 240 ⟨1⟩ }

theorem c9Data240_length : c9Data240.dataPoints.length = 240 := by
  rw [show c9Data240.dataPoints = List.replicate 240 ⟨1⟩ from rfl, List.length_replicate]

theorem c9_calc20 : CalculateStats c9Data240 20 = .error .noValidReturns := by
  have hsamp : rollingSamples (c9Data240.dataPoints.map PricePoint.adjClose)
      (20 * PointsPerYear c9Data240.interval) 20 = [] := by
    rw [show c9Data240.dataPoints = List.replicate 240 ⟨1⟩ from rfl, List.map_replicate]
    rw [show PointsPerYear c9Data240.interval = 12 from rfl, rollingSamples_replicate_one]
    rw [show 240 - 20 * 12 = 0 by norm_num, List.replicate_zero]
  unfold CalculateStats
  rw [if_neg (by
    rw [c9Data240_length, show PointsPerYear c9Data240.interval = 12 from rfl]
    norm_num)]
  simp only []
  rw [if_pos hsamp]

theorem c9_calc10 : ∃ stats, CalculateStats c9Data240 10 = .ok stats := by
  have hsamp : rollingSamples (c9Data240.dataPoints.map PricePoint.adjClose)
      (10 * PointsPerYear c9Data240.interval) 10 = List.replicate 120 0 := by
    rw [show c9Data240.dataPoints = List.replicate 240 ⟨1⟩ from rfl, List.map_replicate]
    rw [show PointsPerYear c9Data240.interval = 12 from rfl, rollingSamples_replicate_one]
  unfold CalculateStats
  rw [if_neg (by
    rw [c9Data240_length, show PointsPerYear c9Data240.interval = 12 from rfl]
    norm_num)]
  simp only []
  rw [if_neg (by rw [hsamp]; simp)]
  exact ⟨_, rfl⟩

/-- The fetch function of the C9 counterexample: "SPY" resolves to the
240-point flat series, everything else fails. -/
noncomputable def c9Fetch : String → Except String HistoricalData := fun s =>
  if s = "SPY" then .ok c9Data240 else .error "unavailable"

/-- C9 counterexample: the 20-year attempt on the 240-point flat series fails
with the no-valid-returns error — not with the insufficient-data error — and
`fetchAndCalculate` still retries and succeeds with the 10-year window.  So
the fallback is not taken *exactly* on `InsufficientDataError`: it is taken
on any error of the 20-year attempt. -/
theorem C9_counterexample :
    CalculateStats c9Data240 20 = .error .noValidReturns ∧
    (∃ info, fetchAndCalculate c9Fetch
        ⟨"SPY", "S&P 500", "500 largest US companies"⟩ = .ok info ∧
      info.rollingPeriodYears = 10) := by
  refine ⟨c9_calc20, ?_⟩
  obtain ⟨stats, hstats⟩ := c9_calc10
  refine ⟨toIndexInfo ⟨"SPY", "S&P 500", "500 largest US companies"⟩ 10 stats, ?_, rfl⟩
  unfold fetchAndCalculate
  rw [show c9Fetch "SPY" = .ok c9Data240 from rfl]
  simp only []
  rw [c9_calc20]
  simp only []
  rw [hstats]

/-- The foldl of `Initialize` only ever appends to its accumulator. -/
theorem initializeFold_prefix (fetch : String → Except String HistoricalData) :
    ∀ (l : List SupportedIndex) (acc : List (String × IndexInfo)),
      ∃ rest, l.foldl (initializeStep fetch) acc = acc ++ rest := by
  intro l
  induction l with
  | nil => intro acc; exact ⟨[], by simp⟩
  | cons a l ih =>
    intro acc
    rw [List.foldl_cons]
    rcases h : fetchAndCalculate fetch a with e | info
    · rw [show initializeStep fetch acc a = acc by unfold initializeStep; rw [h]]
      exact ih acc
    · rw [show initializeStep fetch acc a = acc ++ [(a.symbol, info)] by
        unfold initializeStep; rw [h]]
      obtain ⟨rest, hrest⟩ := ih (acc ++ [(a.symbol, info)])
      exact ⟨(a.symbol, info) :: rest, by rw [hrest, List.append_assoc]; rfl⟩

/-- The cache stays empty exactly when every symbol fails to load. -/
theorem initializeCache_nil_iff (fetch : String → Except String HistoricalData) :
    ∀ (l : List SupportedIndex),
      initializeCache fetch l = [] ↔
      ∀ idx ∈ l, ∃ e, fetchAndCalculate fetch idx = .error e := by
  intro l
  induction l with
  | nil => simp [initializeCache]
  | cons a l ih =>
    unfold initializeCache at ih ⊢
    rw [List.foldl_cons]
    rcases h : fetchAndCalculate fetch a with e | info
    · rw [show initializeStep fetch [] a = [] by unfold initializeStep; rw [h]]
      rw [ih]
      constructor
      · intro hall idx hidx
        rcases List.mem_cons.mp hidx with rfl | hidx
        · exact ⟨e, h⟩
        · exact hall idx hidx
      · intro hall idx hidx
        exact hall idx (List.mem_cons_of_mem a hidx)
    · rw [show initializeStep fetch [] a = [(a.symbol, info)] by
        unfold initializeStep; rw [h]; rfl]
      constructor
      · intro hnil
        obtain ⟨rest, hrest⟩ := initializeFold_prefix fetch l [(a.symbol, info)]
        rw [hrest] at hnil
        simp at hnil
      · intro hall
        obtain ⟨e, he⟩ := hall a (List.mem_cons_self a l)
        rw [h] at he
        exact absurd he (by simp)

/-- C9 (amended): each symbol is loaded by first attempting a 20-year rolling
window and, exactly when that attempt fails with *any* error (the
insufficient-data error or the no-valid-returns error), retrying with a
10-year window; a symbol whose 10-year attempt also fails is skipped without
aborting the others, and `Initialize` returns an error iff zero symbols were
loaded — i.e. iff every supported symbol's load fails. -/
theorem C9_fallback_and_startup (fetch : String → Except String HistoricalData) :
    (∀ idx data stats, fetch idx.symbol = .ok data →
      CalculateStats data 20 = .ok stats →
      fetchAndCalculate fetch idx = .ok (toIndexInfo idx 20 stats)) ∧
    (∀ idx data e stats, fetch idx.symbol = .ok data →
      CalculateStats data 20 = .error e → CalculateStats data 10 = .ok stats →
      fetchAndCalculate fetch idx = .ok (toIndexInfo idx 10 stats)) ∧
    (∀ idx data e e10, fetch idx.symbol = .ok data →
      CalculateStats data 20 = .error e → CalculateStats data 10 = .error e10 →
      fetchAndCalculate fetch idx = .error (.calcFailed e10)) ∧
    ((∃ e, Initialize fetch = .error e) ↔
      ∀ idx ∈ DefaultSupportedIndexes, ∃ e, fetchAndCalculate fetch idx = .error e) := by
  refine ⟨?_, ?_, ?_, ?_⟩
  · intro idx data stats hf h20
    unfold fetchAndCalculate
    rw [hf]
    simp only []
    rw [h20]
  · intro idx data e stats hf h20 h10
    unfold fetchAndCalculate
    rw [hf]
    simp only []
    rw [h20]
    simp only []
    rw [h10]
  · intro idx data e e10 hf h20 h10
    unfold fetchAndCalculate
    rw [hf]
    simp only []
    rw [h20]
    simp only []
    rw [h10]
  · unfold Initialize
    constructor
    · intro ⟨e, he⟩
      by_cases hc : (initializeCache fetch DefaultSupportedIndexes).isEmpty
      · exact (initializeCache_nil_iff fetch DefaultSupportedIndexes).mp
          (List.isEmpty_iff.mp hc)
      · rw [if_neg hc] at he
        exact absurd he (by simp)
    · intro hall
      rw [if_pos (List.isEmpty_iff.mpr
        ((initializeCache_nil_iff fetch DefaultSupportedIndexes).mpr hall))]
      exact ⟨_, rfl⟩

/-- An empty series: both window attempts fail with insufficient data. -/
def c9DataEmpty : HistoricalData :=
  { symbol := "X", interval := "1mo", dataPoints := [] }

/-- The all-down fetch function for the C9 witness. -/
noncomputable def c9FetchEmpty : String → Except String HistoricalData :=
  fun _ => .ok c9DataEmpty

/-- Witness for C9 (amended): on an empty series both attempts fail, the
per-symbol load reports the 10-year shortfall, and `Initialize` fails
because no symbol loaded. -/
theorem C9_witness :
    fetchAndCalculate c9FetchEmpty ⟨"SPY", "S&P 500", "500 largest US companies"⟩ =
      .error (.calcFailed (.insufficientData 120 0)) ∧
    (∃ e, Initialize c9FetchEmpty = .error e) := by
  have h20 : CalculateStats c9DataEmpty 20 = .error (.insufficientData 240 0) := rfl
  have h10 : CalculateStats c9DataEmpty 10 = .error (.insufficientData 120 0) := rfl
  refine ⟨(C9_fallback_and_startup c9FetchEmpty).2.2.1
    ⟨"SPY", "S&P 500", "500 largest US companies"⟩ c9DataEmpty _ _ rfl h20 h10, ?_⟩
  apply ((C9_fallback_and_startup c9FetchEmpty).2.2.2).mpr
  intro idx _
  exact ⟨_, (C9_fallback_and_startup c9FetchEmpty).2.2.1 idx c9DataEmpty _ _ rfl h20 h10⟩

end EtfsSim
